import Mathlib

/-!
# The CRO record contract (`fabric-samples/cro/cro.go`)

A shallow embedding of the chaincode `CROContract` and of the collaborators it
calls, followed by theorems about its four transactions `AddRecord`,
`GetRecord`, `GetRecords` and `RevokeRecord`.

Modelling decisions.

* Byte strings that hold JSON text (ledger values, the transient payload) are
  represented by the JSON value they spell (`JSON`).  `encoding/json` is
  modelled on values: `marshal*` builds the value a Go struct is written as,
  `unmarshal*` decodes a value into a Go struct with the rules of the library:
  members are visited in order, a member names the field whose tag equals its
  name up to case, an unknown member is skipped, `null` leaves a string, a
  boolean or a number as it is and sets a slice, a map or a pointer to nil, a
  value of the wrong JSON type is an error.  Numbers are integers.  The
  elements of an array are decoded into fresh elements: that a repeated
  member can see elements of the array decoded before it is not modelled.
* Go reference types keep their `nil`: a `[]string` is an
  `Option (List String)` and a `map[string]string` is an
  `Option (List (String × String))`, `none` being `nil`.  A map is held as the
  list of its entries sorted by key, one entry per key (`KeySorted`): this is
  what decoding builds (`mapSet`) and the order in which a map is written.
* `uint` is a natural number below `uintSize = 2 ^ 64`; the only arithmetic on
  one, `counter++`, is written with its wrap-around.
* The ledger is a list of entries `(collection, key, value)`, one per
  `(collection, key)`; the order of the list is the order in which a query
  visits it.  A transaction reads the committed ledger and collects its writes
  in a write set, which is committed only when the transaction returns no
  error (`Ledger.commit`, `step`).  `GetPrivateData`, `PutPrivateData` and
  `GetPrivateDataQueryResult` fail only on the argument checks of the shim
  (an empty collection name, an empty key).
* The invocation context `Ctx` holds what the stub and the identity library
  return for one invocation; each may be an error.
-/

namespace CRO

/-! ## JSON values and the few decoders of `encoding/json` that are used -/

/-- JSON values. -/
inductive JSON where
  | null
  | bool (b : Bool)
  | num (n : Int)
  | str (s : String)
  | arr (items : List JSON)
  | obj (members : List (String × JSON))
  deriving Repr, Inhabited

/-- The number of values of a Go `uint` on a 64-bit platform. -/
def uintSize : Nat := 2 ^ 64

/-- Go `len` of a slice or of a map: a `nil` one has length zero. -/
def len {α : Type} : Option (List α) → Nat
  | none => 0
  | some xs => xs.length

/-- Decoding into a `string`: `null` keeps the current value. -/
def decodeString (cur : String) : JSON → Except String String
  | .null => .ok cur
  | .str s => .ok s
  | _ => .error "json: cannot unmarshal value into Go value of type string"

/-- Decoding into a `bool`: `null` keeps the current value. -/
def decodeBool (cur : Bool) : JSON → Except String Bool
  | .null => .ok cur
  | .bool b => .ok b
  | _ => .error "json: cannot unmarshal value into Go value of type bool"

/-- Decoding into a `uint`: the number must be an integer in range. -/
def decodeUint (cur : Nat) : JSON → Except String Nat
  | .null => .ok cur
  | .num (.ofNat m) =>
    if m < uintSize then .ok m
    else .error "json: cannot unmarshal number into Go value of type uint"
  | .num (.negSucc _) => .error "json: cannot unmarshal number into Go value of type uint"
  | _ => .error "json: cannot unmarshal value into Go value of type uint"

/-- Decoding the elements of a JSON array into fresh `string` elements. -/
def decodeStringElems : List JSON → Except String (List String)
  | [] => .ok []
  | x :: xs =>
    match decodeString "" x with
    | .error e => .error e
    | .ok s =>
      match decodeStringElems xs with
      | .error e => .error e
      | .ok ss => .ok (s :: ss)

/-- Decoding into a `[]string`: `null` sets the slice to nil, an array
replaces it. -/
def decodeStringSlice (_cur : Option (List String)) :
    JSON → Except String (Option (List String))
  | .null => .ok none
  | .arr items =>
    match decodeStringElems items with
    | .error e => .error e
    | .ok ss => .ok (some ss)
  | _ => .error "json: cannot unmarshal value into Go value of type []string"

/-- The assignment `m[k] = v` on a map held as the list of its entries sorted
by key: the value of an existing key is replaced, a new key is put in its
place in the order. -/
def mapSet : List (String × String) → String → String → List (String × String)
  | [], k, v => [(k, v)]
  | (k1, v1) :: rest, k, v =>
    if k < k1 then (k, v) :: (k1, v1) :: rest
    else if k = k1 then (k, v) :: rest
    else (k1, v1) :: mapSet rest k v

/-- Decoding the members of a JSON object into the map `m`: each member in
turn is decoded into a fresh `string` and assigned to its key. -/
def decodeStringMembers :
    List (String × String) → List (String × JSON) → Except String (List (String × String))
  | m, [] => .ok m
  | m, (k, x) :: xs =>
    match decodeString "" x with
    | .error e => .error e
    | .ok s => decodeStringMembers (mapSet m k s) xs

/-- Decoding into a `map[string]string`: `null` sets the map to nil, an object
adds its members to the current map (a nil map is allocated first). -/
def decodeStringMap (cur : Option (List (String × String))) :
    JSON → Except String (Option (List (String × String)))
  | .null => .ok none
  | .obj members =>
    match decodeStringMembers (cur.getD []) members with
    | .error e => .error e
    | .ok kvs => .ok (some kvs)
  | _ => .error "json: cannot unmarshal value into Go value of type map[string]string"

/-- Decoding the members of a JSON object into a struct, one after the other:
`set` assigns the field a member names and skips a member that names none. -/
def decodeMembers {σ : Type} (set : σ → String → JSON → Except String σ) :
    σ → List (String × JSON) → Except String σ
  | r, [] => .ok r
  | r, (k, v) :: rest =>
    match set r k v with
    | .error e => .error e
    | .ok r1 => decodeMembers set r1 rest

/-- Marshalling of a `[]string`. -/
def marshalStringSlice : Option (List String) → JSON
  | none => .null
  | some xs => .arr (xs.map JSON.str)

/-- The entries of a map in the order they are written: one entry per key,
sorted by key. -/
def sortedEntries (kvs : List (String × String)) : List (String × String) :=
  kvs.foldl (fun m kv => mapSet m kv.1 kv.2) []

/-- The entries of a map are sorted by key, one entry per key. -/
def KeySorted (m : List (String × String)) : Prop :=
  m.Pairwise (fun a b => a.1 < b.1)

/-- Marshalling of a `map[string]string`: the entries are written sorted by
key. -/
def marshalStringMap : Option (List (String × String)) → JSON
  | none => .null
  | some kvs => .obj ((sortedEntries kvs).map (fun kv => (kv.1, JSON.str kv.2)))

/-! ## The records of the contract -/

/-- `CSFRecord`: the record details visible to all organizations. -/
structure CSFRecord where
  ObjectType : String
  RecordID : String
  ISONumbers : Option (List String)
  CreatedAtUTC : Nat
  PremiseID : String
  DocumentType : String
  Revoked : Bool
  RevocationReason : String
  deriving Repr, DecidableEq, Inhabited

/-- `CSFRecordPrivateDetails`: the details private to the owning organization. -/
structure CSFRecordPrivateDetails where
  RecordID : String
  Fields : Option (List (String × String))
  deriving Repr, DecidableEq, Inhabited

/-- `Record`: what `GetRecord` and `GetRecords` return. -/
structure Record where
  ObjectType : String
  RecordID : String
  ISONumbers : Option (List String)
  CreatedAtUTC : Nat
  PremiseID : String
  DocumentType : String
  Fields : Option (List (String × String))
  Revoked : Bool
  RevocationReason : String
  deriving Repr, DecidableEq, Inhabited

/-- `recordTransientInput`: the struct the transient payload of `AddRecord` is
decoded into. -/
structure recordTransientInput where
  ObjectType : String
  RecordID : String
  ISONumbers : Option (List String)
  CreatedAtUTC : Nat
  PremiseID : String
  DocumentType : String
  Revoked : Bool
  RevocationReason : String
  Fields : Option (List (String × String))
  deriving Repr, DecidableEq, Inhabited

/-- The zero value of `CSFRecord`. -/
def CSFRecord.zero : CSFRecord := ⟨"", "", none, 0, "", "", false, ""⟩

/-- The zero value of `CSFRecordPrivateDetails`. -/
def CSFRecordPrivateDetails.zero : CSFRecordPrivateDetails := ⟨"", none⟩

/-- The zero value of `recordTransientInput`. -/
def recordTransientInput.zero : recordTransientInput := ⟨"", "", none, 0, "", "", false, "", none⟩

/-- The folding of one rune for the comparison of member names: a lower-case
ASCII letter becomes the upper-case one, and so do the two other runes that
differ from an ASCII letter only in case, the long s (U+017F) and the Kelvin
sign (U+212A); no other rune folds to an ASCII letter. -/
def foldRune (c : Char) : Char :=
  if 'a' ≤ c ∧ c ≤ 'z' then Char.ofNat (c.toNat - 32)
  else if c = Char.ofNat 0x17F then 'S'
  else if c = Char.ofNat 0x212A then 'K'
  else c

/-- The folded form of a member name: a member names the field whose tag has
the same folded form (the match of `encoding/json` is case-insensitive, and
the tags of each struct below have different folded forms). -/
def foldName (name : String) : String :=
  ⟨name.data.map foldRune⟩

/-- Assignment of one JSON member to the field of `CSFRecord` with that tag. -/
def CSFRecord.setField (r : CSFRecord) (name : String) (v : JSON) : Except String CSFRecord :=
  if foldName name = foldName "objectType" then
    match decodeString r.ObjectType v with
    | .error e => .error e
    | .ok x => .ok { r with ObjectType := x }
  else if foldName name = foldName "recordId" then
    match decodeString r.RecordID v with
    | .error e => .error e
    | .ok x => .ok { r with RecordID := x }
  else if foldName name = foldName "isoNumbers" then
    match decodeStringSlice r.ISONumbers v with
    | .error e => .error e
    | .ok x => .ok { r with ISONumbers := x }
  else if foldName name = foldName "createdAtUTC" then
    match decodeUint r.CreatedAtUTC v with
    | .error e => .error e
    | .ok x => .ok { r with CreatedAtUTC := x }
  else if foldName name = foldName "premiseId" then
    match decodeString r.PremiseID v with
    | .error e => .error e
    | .ok x => .ok { r with PremiseID := x }
  else if foldName name = foldName "documentType" then
    match decodeString r.DocumentType v with
    | .error e => .error e
    | .ok x => .ok { r with DocumentType := x }
  else if foldName name = foldName "revoked" then
    match decodeBool r.Revoked v with
    | .error e => .error e
    | .ok x => .ok { r with Revoked := x }
  else if foldName name = foldName "revocationReason" then
    match decodeString r.RevocationReason v with
    | .error e => .error e
    | .ok x => .ok { r with RevocationReason := x }
  else .ok r

/-- Assignment of one JSON member to the field of `CSFRecordPrivateDetails`
with that tag. -/
def CSFRecordPrivateDetails.setField (r : CSFRecordPrivateDetails) (name : String) (v : JSON) :
    Except String CSFRecordPrivateDetails :=
  if foldName name = foldName "recordId" then
    match decodeString r.RecordID v with
    | .error e => .error e
    | .ok x => .ok { r with RecordID := x }
  else if foldName name = foldName "fields" then
    match decodeStringMap r.Fields v with
    | .error e => .error e
    | .ok x => .ok { r with Fields := x }
  else .ok r

/-- Assignment of one JSON member to the field of `recordTransientInput` with
that tag. -/
def recordTransientInput.setField (r : recordTransientInput) (name : String) (v : JSON) :
    Except String recordTransientInput :=
  if foldName name = foldName "objectType" then
    match decodeString r.ObjectType v with
    | .error e => .error e
    | .ok x => .ok { r with ObjectType := x }
  else if foldName name = foldName "recordId" then
    match decodeString r.RecordID v with
    | .error e => .error e
    | .ok x => .ok { r with RecordID := x }
  else if foldName name = foldName "isoNumbers" then
    match decodeStringSlice r.ISONumbers v with
    | .error e => .error e
    | .ok x => .ok { r with ISONumbers := x }
  else if foldName name = foldName "createdAtUTC" then
    match decodeUint r.CreatedAtUTC v with
    | .error e => .error e
    | .ok x => .ok { r with CreatedAtUTC := x }
  else if foldName name = foldName "premiseId" then
    match decodeString r.PremiseID v with
    | .error e => .error e
    | .ok x => .ok { r with PremiseID := x }
  else if foldName name = foldName "documentType" then
    match decodeString r.DocumentType v with
    | .error e => .error e
    | .ok x => .ok { r with DocumentType := x }
  else if foldName name = foldName "revoked" then
    match decodeBool r.Revoked v with
    | .error e => .error e
    | .ok x => .ok { r with Revoked := x }
  else if foldName name = foldName "revocationReason" then
    match decodeString r.RevocationReason v with
    | .error e => .error e
    | .ok x => .ok { r with RevocationReason := x }
  else if foldName name = foldName "fields" then
    match decodeStringMap r.Fields v with
    | .error e => .error e
    | .ok x => .ok { r with Fields := x }
  else .ok r

/-- `json.Unmarshal(bytes, &v)` for `v` a `CSFRecord` holding `cur`. -/
def unmarshalCSFRecord (cur : CSFRecord) : JSON → Except String CSFRecord
  | .null => .ok cur
  | .obj members => decodeMembers CSFRecord.setField cur members
  | _ => .error "json: cannot unmarshal value into Go value of type main.CSFRecord"

/-- `json.Unmarshal(bytes, &p)` for `p` a nil `*CSFRecord`: `null` leaves the
pointer nil, an object allocates a zero record and decodes into it. -/
def unmarshalCSFRecordPtr : JSON → Except String (Option CSFRecord)
  | .null => .ok none
  | .obj members =>
    match decodeMembers CSFRecord.setField CSFRecord.zero members with
    | .error e => .error e
    | .ok r => .ok (some r)
  | _ => .error "json: cannot unmarshal value into Go value of type main.CSFRecord"

/-- `json.Unmarshal(bytes, &v)` for `v` a `CSFRecordPrivateDetails` holding `cur`. -/
def unmarshalCSFRecordPrivateDetails (cur : CSFRecordPrivateDetails) :
    JSON → Except String CSFRecordPrivateDetails
  | .null => .ok cur
  | .obj members => decodeMembers CSFRecordPrivateDetails.setField cur members
  | _ => .error "json: cannot unmarshal value into Go value of type main.CSFRecordPrivateDetails"

/-- `json.Unmarshal(bytes, &v)` for `v` a `recordTransientInput` holding `cur`. -/
def unmarshalRecordTransientInput (cur : recordTransientInput) :
    JSON → Except String recordTransientInput
  | .null => .ok cur
  | .obj members => decodeMembers recordTransientInput.setField cur members
  | _ => .error "json: cannot unmarshal value into Go value of type main.recordTransientInput"

/-- `json.Marshal` of a `CSFRecord`. -/
def marshalCSFRecord (r : CSFRecord) : JSON :=
  .obj [("objectType", .str r.ObjectType),
        ("recordId", .str r.RecordID),
        ("isoNumbers", marshalStringSlice r.ISONumbers),
        ("createdAtUTC", .num (Int.ofNat r.CreatedAtUTC)),
        ("premiseId", .str r.PremiseID),
        ("documentType", .str r.DocumentType),
        ("revoked", .bool r.Revoked),
        ("revocationReason", .str r.RevocationReason)]

/-- `json.Marshal` of a `CSFRecordPrivateDetails`. -/
def marshalCSFRecordPrivateDetails (d : CSFRecordPrivateDetails) : JSON :=
  .obj [("recordId", .str d.RecordID),
        ("fields", marshalStringMap d.Fields)]

/-! ## The ledger and its query -/

/-- One key of one collection and the bytes stored there. -/
structure Entry where
  collection : String
  key : String
  value : JSON
  deriving Repr, Inhabited

/-- The committed private data of all collections; list order is query order. -/
abbrev Ledger := List Entry

/-- The value stored at `key` of `collection`, if any. -/
def Ledger.lookup : Ledger → String → String → Option JSON
  | [], _, _ => none
  | e :: rest, collection, key =>
    if e.collection = collection ∧ e.key = key then some e.value
    else Ledger.lookup rest collection key

/-- Committing one write: the value at an existing key is replaced in place, a
new key is added at the end. -/
def Ledger.put : Ledger → Entry → Ledger
  | [], w => [w]
  | e :: rest, w =>
    if e.collection = w.collection ∧ e.key = w.key then w :: rest
    else e :: Ledger.put rest w

/-- Committing a write set, in the order the writes were made. -/
def Ledger.commit (s : Ledger) (ws : List Entry) : Ledger :=
  ws.foldl Ledger.put s

/-- `stub.GetPrivateData(collection, key)`: `nil` bytes (`none`) when the key
is absent. -/
def GetPrivateData (s : Ledger) (collection key : String) : Except String (Option JSON) :=
  if collection = "" then .error "collection must not be an empty string"
  else .ok (s.lookup collection key)

/-- `stub.PutPrivateData(collection, key, value)`: adds the write to the write
set `ws` of the transaction. -/
def PutPrivateData (ws : List Entry) (collection key : String) (value : JSON) :
    Except String (List Entry) :=
  if collection = "" then .error "collection must not be an empty string"
  else if key = "" then .error "key must not be an empty string"
  else .ok (ws ++ [⟨collection, key, value⟩])

/-- The selector `GetRecords` builds: `isoNumbers` with `$in` and, when
present, `createdAtUTC` with `$gte` and `$lte`. -/
structure Selector where
  isoNumbersIn : List String
  createdAtUTC : Option (Nat × Nat)
  deriving Repr, DecidableEq

/-- Indexing of a list of named values by name. -/
def mapIndex {α : Type} : List (String × α) → String → Option α
  | [], _ => none
  | (k, v) :: rest, key => if k = key then some v else mapIndex rest key

/-- The member `name` of a JSON object. -/
def JSON.member : JSON → String → Option JSON
  | .obj members, name => mapIndex members name
  | _, _ => none

/-- The `$in` operator on a field value and string arguments: an array matches
when one of its elements is one of the arguments, another value when it is
one of them. -/
def mangoIn (args : List String) : JSON → Bool
  | .arr items => items.any (fun x => match x with | .str s => decide (s ∈ args) | _ => false)
  | .str s => decide (s ∈ args)
  | _ => false

/-- The `$gte` operator with a number argument; `null` and booleans collate
below every number, strings, arrays and objects above. -/
def mangoGte (bound : Nat) : JSON → Bool
  | .num n => decide (Int.ofNat bound ≤ n)
  | .null => false
  | .bool _ => false
  | _ => true

/-- The `$lte` operator with a number argument. -/
def mangoLte (bound : Nat) : JSON → Bool
  | .num n => decide (n ≤ Int.ofNat bound)
  | .null => true
  | .bool _ => true
  | _ => false

/-- Whether a stored document satisfies the selector: every named field must
be present and satisfy its operators. -/
def Selector.matches (sel : Selector) (doc : JSON) : Bool :=
  (match doc.member "isoNumbers" with
   | none => false
   | some v => mangoIn sel.isoNumbersIn v) &&
  (match sel.createdAtUTC with
   | none => true
   | some (gte, lte) =>
     match doc.member "createdAtUTC" with
     | none => false
     | some v => mangoGte gte v && mangoLte lte v)

/-- `stub.GetPrivateDataQueryResult(collection, query)`: the keys and values of
the collection whose document satisfies the selector, in ledger order. -/
def GetPrivateDataQueryResult (s : Ledger) (collection : String) (sel : Selector) :
    Except String (List (String × JSON)) :=
  if collection = "" then .error "collection must not be an empty string"
  else .ok ((s.filter (fun e => decide (e.collection = collection) && sel.matches e.value)).map
    (fun e => (e.key, e.value)))

/-! ## The invocation context -/

/-- A base64 text, held as what `base64.StdEncoding.DecodeString` returns on it. -/
structure Base64Text where
  DecodeString : Except String String
  deriving Repr

/-- What the stub and the identity library answer during one invocation. -/
structure Ctx where
  /-- `ctx.GetStub().GetTransient()` -/
  transient : Except String (List (String × JSON))
  /-- `ctx.GetClientIdentity().GetMSPID()` -/
  clientMSPID : Except String String
  /-- `ctx.GetClientIdentity().GetID()` -/
  clientID : Except String Base64Text
  /-- `shim.GetMSPID()` -/
  peerMSPID : Except String String
  deriving Repr

/-! ## Errors -/

/-- The input fields whose emptiness the contract reports. -/
inductive Field where
  | objectType
  | recordId
  | isoNumbers
  | createdAtUTC
  | premiseId
  | documentType
  | isoNumbersArg
  deriving Repr, DecidableEq

/-- The errors the contract returns, one constructor per `fmt.Errorf` of the
source (and one for the nil dereference in `GetRecord`); `Err.message` gives
the text. -/
inductive Err where
  | gettingTransient (e : String)
  | notInTransient
  | unmarshalJSON (e : String)
  | mustBeNonEmpty (f : Field)
  | getRecord (e : String)
  | alreadyExists (recordID : String)
  | readClientID (e : String)
  | decodeClientID (e : String)
  | clientMSPID (e : String)
  | peerMSPID (e : String)
  | notAuthorized (clientMSPID peerMSPID : String)
  | createCannotBePerformed (cause : Err)
  | putRecord (e : String)
  | verifiedMSPID (e : String)
  | inferCollection (cause : Err)
  | putPrivateDetails (e : String)
  | readRecord (e : String)
  | nilDereference
  | retrieveRecord (e : String)
  | unmarshalRecord (e : String)
  | executeQuery (e : String)
  | unmarshalRecordJSON (e : String)
  | getFromRecordCollection (e : String)
  | doesNotExist (recordID : String)
  | putUpdatedRecord (e : String)
  | alreadyRevoked
  deriving Repr, DecidableEq

/-- The text of the empty-field errors. -/
def Field.message : Field → String
  | .objectType => "objectType field must be a non-empty string"
  | .recordId => "recordId field must be a non-empty string"
  | .isoNumbers => "isoNumbers field must be a non-empty array"
  | .createdAtUTC => "createdAtUTC field must be a non-empty uint"
  | .premiseId => "premiseId field must be a non-empty string"
  | .documentType => "documentType field must be a non-empty string"
  | .isoNumbersArg => "isoNumbers field must be a non-empty string"

/-- The text of an error. -/
def Err.message : Err → String
  | .gettingTransient e => "error getting transient: " ++ e
  | .notInTransient => "record not found in the transient map input"
  | .unmarshalJSON e => "failed to unmarshal JSON: " ++ e
  | .mustBeNonEmpty f => f.message
  | .getRecord e => "failed to get record: " ++ e
  | .alreadyExists recordID => "this record already exists: " ++ recordID
  | .readClientID e => "failed to read clientID: " ++ e
  | .decodeClientID e => "failed to base64 decode clientID: " ++ e
  | .clientMSPID e => "failed getting the client's MSPID: " ++ e
  | .peerMSPID e => "failed getting the peer's MSPID: " ++ e
  | .notAuthorized c p =>
    "client from org " ++ c ++
      " is not authorized to read or write private data from an org " ++ p ++ " peer"
  | .createCannotBePerformed cause => "CreateCSFRecord cannot be performed: Error " ++ cause.message
  | .putRecord e => "failed to put record into private data collection: " ++ e
  | .verifiedMSPID e => "failed to get verified MSPID: " ++ e
  | .inferCollection cause =>
    "failed to infer private collection name for the org: " ++ cause.message
  | .putPrivateDetails e => "failed to put record private details: " ++ e
  | .readRecord e => "failed to read record: " ++ e
  | .nilDereference => "runtime error: invalid memory address or nil pointer dereference"
  | .retrieveRecord e => "failed to retrieve record: " ++ e
  | .unmarshalRecord e => "failed to unmarshal record: " ++ e
  | .executeQuery e => "failed to execute query: " ++ e
  | .unmarshalRecordJSON e => "error while unmarshalling record JSON: " ++ e
  | .getFromRecordCollection e => "failed to get record from record collection: " ++ e
  | .doesNotExist recordID => "record does not exist: " ++ recordID
  | .putUpdatedRecord e => "failed to put updated record into private data collection: " ++ e
  | .alreadyRevoked => "record already revoked"

deriving instance DecidableEq for Except

/-! ## The contract -/

/-- The name of the collection that holds the shared records. -/
def recordCollection : String := "recordCollection"

/-- `getCollectionName`: the collection of the submitting client organization. -/
def getCollectionName (ctx : Ctx) : Except Err String :=
  match ctx.clientMSPID with
  | .error e => .error (.verifiedMSPID e)
  | .ok clientMSPID =>
    let orgCollection := clientMSPID ++ "PrivateCollection"
    .ok orgCollection

/-- `verifyClientOrgMatchesPeerOrg`: the client organization must be the
organization of the peer. -/
def verifyClientOrgMatchesPeerOrg (ctx : Ctx) : Except Err Unit :=
  match ctx.clientMSPID with
  | .error e => .error (.clientMSPID e)
  | .ok clientMSPID =>
    match ctx.peerMSPID with
    | .error e => .error (.peerMSPID e)
    | .ok peerMSPID =>
      if clientMSPID ≠ peerMSPID then .error (.notAuthorized clientMSPID peerMSPID)
      else .ok ()

/-- `submittingClientIdentity`: the decoded identifier of the submitting client. -/
def submittingClientIdentity (ctx : Ctx) : Except Err String :=
  match ctx.clientID with
  | .error e => .error (.readClientID e)
  | .ok b64ID =>
    match b64ID.DecodeString with
    | .error e => .error (.decodeClientID e)
    | .ok decodeID => .ok decodeID

/-- `AddRecord`: the error it returns, if any, and the write set it leaves. -/
def AddRecord (ctx : Ctx) (s : Ledger) : Except Err Unit × List Entry :=
  match ctx.transient with
  | .error e => (.error (.gettingTransient e), [])
  | .ok transientMap =>
  match mapIndex transientMap "record_properties" with
  | none => (.error .notInTransient, [])
  | some transientRecordJSON =>
  match unmarshalRecordTransientInput recordTransientInput.zero transientRecordJSON with
  | .error e => (.error (.unmarshalJSON e), [])
  | .ok recordInput =>
  if recordInput.ObjectType.length = 0 then (.error (.mustBeNonEmpty .objectType), [])
  else if recordInput.RecordID.length = 0 then (.error (.mustBeNonEmpty .recordId), [])
  else if len recordInput.ISONumbers = 0 then (.error (.mustBeNonEmpty .isoNumbers), [])
  else if recordInput.CreatedAtUTC = 0 then (.error (.mustBeNonEmpty .createdAtUTC), [])
  else if recordInput.PremiseID.length = 0 then (.error (.mustBeNonEmpty .premiseId), [])
  else if recordInput.DocumentType.length = 0 then (.error (.mustBeNonEmpty .documentType), [])
  else
  match GetPrivateData s recordCollection recordInput.RecordID with
  | .error e => (.error (.getRecord e), [])
  | .ok (some _) => (.error (.alreadyExists recordInput.RecordID), [])
  | .ok none =>
  match submittingClientIdentity ctx with
  | .error e => (.error e, [])
  | .ok _ =>
  match verifyClientOrgMatchesPeerOrg ctx with
  | .error e => (.error (.createCannotBePerformed e), [])
  | .ok () =>
  let record : CSFRecord :=
    { ObjectType := recordInput.ObjectType
      RecordID := recordInput.RecordID
      ISONumbers := recordInput.ISONumbers
      CreatedAtUTC := recordInput.CreatedAtUTC
      PremiseID := recordInput.PremiseID
      DocumentType := recordInput.DocumentType
      Revoked := false
      RevocationReason := "" }
  let recordJSONasBytes := marshalCSFRecord record
  match PutPrivateData [] recordCollection recordInput.RecordID recordJSONasBytes with
  | .error e => (.error (.putRecord e), [])
  | .ok ws1 =>
  let recordPrivateDetails : CSFRecordPrivateDetails :=
    { RecordID := recordInput.RecordID
      Fields := recordInput.Fields }
  let recordPrivateDetailsAsBytes := marshalCSFRecordPrivateDetails recordPrivateDetails
  match getCollectionName ctx with
  | .error e => (.error (.inferCollection e), ws1)
  | .ok orgCollection =>
  match PutPrivateData ws1 orgCollection recordInput.RecordID recordPrivateDetailsAsBytes with
  | .error e => (.error (.putPrivateDetails e), ws1)
  | .ok ws2 => (.ok (), ws2)

/-- The `Record` built from a `CSFRecord`, its `Fields` still unset. -/
def Record.ofCSFRecord (csfRecord : CSFRecord) : Record :=
  { ObjectType := csfRecord.ObjectType
    RecordID := csfRecord.RecordID
    ISONumbers := csfRecord.ISONumbers
    CreatedAtUTC := csfRecord.CreatedAtUTC
    PremiseID := csfRecord.PremiseID
    DocumentType := csfRecord.DocumentType
    Fields := none
    Revoked := csfRecord.Revoked
    RevocationReason := csfRecord.RevocationReason }

/-- `GetRecord`: the record, or `none` (a nil `*Record`) when there is none. -/
def GetRecord (ctx : Ctx) (s : Ledger) (recordID : String) : Except Err (Option Record) :=
  if recordID.length = 0 then .error (.mustBeNonEmpty .recordId)
  else
  match GetPrivateData s recordCollection recordID with
  | .error e => .error (.readRecord e)
  | .ok none => .ok none
  | .ok (some recordJSON) =>
  match unmarshalCSFRecordPtr recordJSON with
  | .error e => .error (.unmarshalJSON e)
  | .ok none => .error .nilDereference
  | .ok (some csfRecord) =>
  let record := Record.ofCSFRecord csfRecord
  match getCollectionName ctx with
  | .error e => .error (.inferCollection e)
  | .ok orgCollection =>
  match GetPrivateData s orgCollection recordID with
  | .error e => .error (.retrieveRecord e)
  | .ok none => .ok (some { record with Fields := some [] })
  | .ok (some recordAsBytes) =>
  match unmarshalCSFRecordPrivateDetails CSFRecordPrivateDetails.zero recordAsBytes with
  | .error e => .error (.unmarshalRecord e)
  | .ok recordPrivate => .ok (some { record with Fields := recordPrivate.Fields })

/-- The body of the loop of `GetRecords` up to the `append`: the record built
from one query result and the private details of the caller for it. -/
def GetRecords.item (ctx : Ctx) (s : Ledger) (queryResponse : String × JSON) : Except Err Record :=
  match unmarshalCSFRecord CSFRecord.zero queryResponse.2 with
  | .error e => .error (.unmarshalRecordJSON e)
  | .ok csfRecord =>
  let record := Record.ofCSFRecord csfRecord
  match getCollectionName ctx with
  | .error e => .error (.inferCollection e)
  | .ok orgCollection =>
  match GetPrivateData s orgCollection csfRecord.RecordID with
  | .error e => .error (.retrieveRecord e)
  | .ok none => .ok { record with Fields := some [] }
  | .ok (some recordAsBytes) =>
  match unmarshalCSFRecordPrivateDetails CSFRecordPrivateDetails.zero recordAsBytes with
  | .error e => .error (.unmarshalRecord e)
  | .ok recordPrivate => .ok { record with Fields := recordPrivate.Fields }

/-- The loop of `GetRecords` over the results the iterator still holds, with
the records collected so far and the counter. -/
def GetRecords.loop (ctx : Ctx) (s : Ledger) (Limit : Nat) :
    List (String × JSON) → List Record → Nat → Except Err (List Record)
  | [], records, _ => .ok records
  | queryResponse :: rest, records, counter =>
    match GetRecords.item ctx s queryResponse with
    | .error e => .error e
    | .ok record =>
    let records := records ++ [record]
    let counter := (counter + 1) % uintSize
    if Limit > 0 ∧ counter ≥ Limit then .ok records
    else GetRecords.loop ctx s Limit rest records counter

/-- The selector `GetRecords` builds from its arguments: the date range is
added only when both bounds are non-zero. -/
def GetRecords.selector (ISONumbers : String) (DateFrom DateTo : Nat) : Selector :=
  let selector : Selector := { isoNumbersIn := [ISONumbers], createdAtUTC := none }
  if DateFrom ≠ 0 ∧ DateTo ≠ 0 then { selector with createdAtUTC := some (DateFrom, DateTo) }
  else selector

/-- `GetRecords`: the records whose `isoNumbers` hold `ISONumbers`, with the
optional date range and limit. -/
def GetRecords (ctx : Ctx) (s : Ledger) (ISONumbers : String) (DateFrom DateTo Limit : Nat) :
    Except Err (List Record) :=
  if ISONumbers.length = 0 then .error (.mustBeNonEmpty .isoNumbersArg)
  else
  let selector := GetRecords.selector ISONumbers DateFrom DateTo
  match GetPrivateDataQueryResult s recordCollection selector with
  | .error e => .error (.executeQuery e)
  | .ok resultsIterator => GetRecords.loop ctx s Limit resultsIterator [] 0

/-- `RevokeRecord`: the error it returns, if any, and the write set it leaves. -/
def RevokeRecord (_ctx : Ctx) (s : Ledger) (RecordID RevocationReason : String) :
    Except Err Unit × List Entry :=
  if RecordID.length = 0 then (.error (.mustBeNonEmpty .recordId), [])
  else
  match GetPrivateData s recordCollection RecordID with
  | .error e => (.error (.getFromRecordCollection e), [])
  | .ok none => (.error (.doesNotExist RecordID), [])
  | .ok (some recordAsBytes) =>
  match unmarshalCSFRecord CSFRecord.zero recordAsBytes with
  | .error e => (.error (.unmarshalRecord e), [])
  | .ok record =>
  if !record.Revoked then
    let record := { record with Revoked := true, RevocationReason := RevocationReason }
    let recordJSONasBytes := marshalCSFRecord record
    match PutPrivateData [] recordCollection RecordID recordJSONasBytes with
    | .error e => (.error (.putUpdatedRecord e), [])
    | .ok ws1 => (.ok (), ws1)
  else (.error .alreadyRevoked, [])

/-! ## Invocations against the ledger -/

/-- The ledger after a transaction that returned `out`: its write set is
committed when it returned no error and dropped otherwise. -/
def Ledger.after {α : Type} (s : Ledger) (out : Except Err α × List Entry) : Ledger :=
  match out.1 with
  | .ok _ => s.commit out.2
  | .error _ => s

/-- One invocation of the contract. -/
inductive Call where
  | addRecord (ctx : Ctx)
  | getRecord (ctx : Ctx) (recordID : String)
  | getRecords (ctx : Ctx) (ISONumbers : String) (DateFrom DateTo Limit : Nat)
  | revokeRecord (ctx : Ctx) (RecordID RevocationReason : String)

/-- The ledger after one invocation. -/
def step (s : Ledger) : Call → Ledger
  | .addRecord ctx => s.after (AddRecord ctx s)
  | .getRecord ctx recordID => s.after (GetRecord ctx s recordID, [])
  | .getRecords ctx ISONumbers DateFrom DateTo Limit =>
    s.after (GetRecords ctx s ISONumbers DateFrom DateTo Limit, [])
  | .revokeRecord ctx RecordID RevocationReason =>
    s.after (RevokeRecord ctx s RecordID RevocationReason)

/-- The ledger after a sequence of invocations. -/
def run (s : Ledger) (calls : List Call) : Ledger :=
  calls.foldl step s

/-! ## Notions used to state the properties -/

/-- The payload `AddRecord` decodes from the transient map (its first three
steps), or the error it returns there. -/
def decodedPayload (ctx : Ctx) : Except Err recordTransientInput :=
  match ctx.transient with
  | .error e => .error (.gettingTransient e)
  | .ok transientMap =>
  match mapIndex transientMap "record_properties" with
  | none => .error .notInTransient
  | some transientRecordJSON =>
  match unmarshalRecordTransientInput recordTransientInput.zero transientRecordJSON with
  | .error e => .error (.unmarshalJSON e)
  | .ok recordInput => .ok recordInput

/-- The six requirements on a payload, in the order the specification lists
them. -/
def requirements : List Field :=
  [.objectType, .recordId, .isoNumbers, .createdAtUTC, .premiseId, .documentType]

/-- Whether a payload violates the requirement on a field: strings and
`isoNumbers` must be non-empty, `createdAtUTC` non-zero. -/
def violates (p : recordTransientInput) : Field → Bool
  | .objectType => decide (p.ObjectType = "")
  | .recordId => decide (p.RecordID = "")
  | .isoNumbers => decide (len p.ISONumbers = 0)
  | .createdAtUTC => decide (p.CreatedAtUTC = 0)
  | .premiseId => decide (p.PremiseID = "")
  | .documentType => decide (p.DocumentType = "")
  | .isoNumbersArg => false

/-- The first requirement a payload violates, in the order of `requirements`. -/
def firstViolated (p : recordTransientInput) : Option Field :=
  requirements.find? (violates p)

/-- A payload that passes validation violates none of the requirements. -/
def Valid (p : recordTransientInput) : Prop :=
  ∀ f ∈ requirements, violates p f = false

instance (p : recordTransientInput) : Decidable (Valid p) := by
  unfold Valid; infer_instance

/-- The shared record `AddRecord` stores for a payload. -/
def shellOf (p : recordTransientInput) : CSFRecord :=
  { ObjectType := p.ObjectType
    RecordID := p.RecordID
    ISONumbers := p.ISONumbers
    CreatedAtUTC := p.CreatedAtUTC
    PremiseID := p.PremiseID
    DocumentType := p.DocumentType
    Revoked := false
    RevocationReason := "" }

/-- The private details `AddRecord` stores for a payload. -/
def detailsOf (p : recordTransientInput) : CSFRecordPrivateDetails :=
  { RecordID := p.RecordID
    Fields := p.Fields }

/-- The shared record stored at key `r`: the bytes there, decoded as
`RevokeRecord` and `GetRecords` decode them. -/
def sharedRecord (s : Ledger) (r : String) : Option CSFRecord :=
  match s.lookup recordCollection r with
  | none => none
  | some doc =>
    match unmarshalCSFRecord CSFRecord.zero doc with
    | .error _ => none
    | .ok record => some record

/-- The shared fields of a returned `Record`. -/
def Record.shell (r : Record) : CSFRecord :=
  { ObjectType := r.ObjectType
    RecordID := r.RecordID
    ISONumbers := r.ISONumbers
    CreatedAtUTC := r.CreatedAtUTC
    PremiseID := r.PremiseID
    DocumentType := r.DocumentType
    Revoked := r.Revoked
    RevocationReason := r.RevocationReason }

/-- The shared records of a ledger, in ledger order: the values of the shared
collection, decoded. -/
def sharedRecords (s : Ledger) : List CSFRecord :=
  s.filterMap (fun e =>
    if e.collection = recordCollection then
      match unmarshalCSFRecord CSFRecord.zero e.value with
      | .error _ => none
      | .ok record => some record
    else none)

/-- The selection of the specification: `isoNumbers` contains `X`, and
`createdAtUTC` lies in `[DateFrom, DateTo]` when both bounds are non-zero. -/
def selected (X : String) (DateFrom DateTo : Nat) (record : CSFRecord) : Bool :=
  decide (X ∈ record.ISONumbers.getD []) &&
  (if DateFrom ≠ 0 ∧ DateTo ≠ 0 then
    decide (DateFrom ≤ record.CreatedAtUTC ∧ record.CreatedAtUTC ≤ DateTo)
   else true)

/-- Every value of the shared collection is the encoding of a `CSFRecord`, as
`AddRecord` and `RevokeRecord` write it. -/
def SharedWellFormed (s : Ledger) : Prop :=
  ∀ e ∈ s, e.collection = recordCollection →
    ∃ record : CSFRecord, record.CreatedAtUTC < uintSize ∧ e.value = marshalCSFRecord record

/-- Every value of the collection `c` decodes as private details. -/
def PrivateDecodable (s : Ledger) (c : String) : Prop :=
  ∀ e ∈ s, e.collection = c →
    ∃ d, unmarshalCSFRecordPrivateDetails CSFRecordPrivateDetails.zero e.value = .ok d

/-- The query results `GetRecords` iterates over. -/
def queryResults (s : Ledger) (ISONumbers : String) (DateFrom DateTo : Nat) :
    List (String × JSON) :=
  (s.filter (fun e => decide (e.collection = recordCollection) &&
    (GetRecords.selector ISONumbers DateFrom DateTo).matches e.value)).map
    (fun e => (e.key, e.value))

/-- The records for a list of query results: the body of the loop of
`GetRecords` on each in turn, up to the first error. -/
def collect (ctx : Ctx) (s : Ledger) : List (String × JSON) → Except Err (List Record)
  | [] => .ok []
  | queryResponse :: rest =>
    match GetRecords.item ctx s queryResponse with
    | .error e => .error e
    | .ok record =>
      match collect ctx s rest with
      | .error e => .error e
      | .ok records => .ok (record :: records)

/-- A ledger holds no empty collection name and no empty key:
`PutPrivateData` refuses both. -/
def Ledger.WellFormed (s : Ledger) : Prop :=
  ∀ e ∈ s, e.collection ≠ "" ∧ e.key ≠ ""

instance (s : Ledger) : Decidable s.WellFormed := by
  unfold Ledger.WellFormed; infer_instance

/-- The record identifier and the client organization of a successful
`AddRecord`; `none` when `AddRecord` fails. -/
def creation (ctx : Ctx) (s : Ledger) : Option (String × String) :=
  match (AddRecord ctx s).1, decodedPayload ctx, ctx.clientMSPID with
  | .ok _, .ok p, .ok org => some (p.RecordID, org)
  | _, _, _ => none

/-- One invocation on a ledger that is followed together with the list of the
creations so far: pairs of a record identifier and the organization of the
client that created it. -/
def stepCreators (st : Ledger × List (String × String)) (call : Call) :
    Ledger × List (String × String) :=
  (step st.1 call,
   match call with
   | .addRecord ctx => st.2 ++ (creation ctx st.1).toList
   | _ => st.2)

/-- The ledger and the creations after a sequence of invocations on the empty
ledger. -/
def runCreators (calls : List Call) : Ledger × List (String × String) :=
  calls.foldl stepCreators ([], [])

/-- The creations of a sequence of invocations on the empty ledger:
`(r, A) ∈ creators calls` says that record `r` was created by a client of
organization `A`. -/
def creators (calls : List Call) : List (String × String) :=
  (runCreators calls).2

/-- What the contract keeps true of the shared record stored at `key`. -/
def CSFRecord.Sound (record : CSFRecord) (key : String) : Prop :=
  record.RecordID = key ∧ record.CreatedAtUTC < uintSize ∧
  record.ObjectType ≠ "" ∧ record.RecordID ≠ "" ∧ len record.ISONumbers ≠ 0 ∧
  record.CreatedAtUTC ≠ 0 ∧ record.PremiseID ≠ "" ∧ record.DocumentType ≠ "" ∧
  (record.Revoked = false → record.RevocationReason = "")

/-- The invariant of the ledgers reached from the empty ledger, with the
creations `cr` that led to them. -/
structure Inv (s : Ledger) (cr : List (String × String)) : Prop where
  /-- the shared collection holds encoded sound records -/
  shared : ∀ e ∈ s, e.collection = recordCollection →
    ∃ record : CSFRecord, e.value = marshalCSFRecord record ∧ record.Sound e.key
  /-- every other entry is the private details of a record, in the collection
  of the organization that created it -/
  priv : ∀ e ∈ s, e.collection ≠ recordCollection →
    ∃ (org : String) (d : CSFRecordPrivateDetails), e.collection = org ++ "PrivateCollection" ∧
      (e.key, org) ∈ cr ∧ e.value = marshalCSFRecordPrivateDetails d ∧ d.RecordID = e.key
  /-- a created record has its shared record and its private details -/
  created : ∀ r org, (r, org) ∈ cr →
    s.lookup recordCollection r ≠ none ∧ s.lookup (org ++ "PrivateCollection") r ≠ none
  /-- a record has one creator -/
  unique : ∀ r a b, (r, a) ∈ cr → (r, b) ∈ cr → a = b

/-! ## Example invocations -/

/-- The bytes of the payload of the example of the specification. -/
def payloadR1JSON : JSON :=
  .obj [("objectType", .str "tag"),
        ("recordId", .str "R1"),
        ("isoNumbers", .arr [.str "A123"]),
        ("createdAtUTC", .num 1000),
        ("premiseId", .str "P1"),
        ("documentType", .str "activation"),
        ("fields", .obj [("owner", .str "Jane")])]

/-- The payload of the example of the specification, decoded. -/
def payloadR1 : recordTransientInput :=
  { ObjectType := "tag"
    RecordID := "R1"
    ISONumbers := some ["A123"]
    CreatedAtUTC := 1000
    PremiseID := "P1"
    DocumentType := "activation"
    Revoked := false
    RevocationReason := ""
    Fields := some [("owner", "Jane")] }

/-- An invocation by a client of `client` on a peer of `peer` that carries the
bytes `payload` in the transient map. -/
def ctxOf (client peer : String) (payload : JSON) : Ctx :=
  { transient := .ok [("record_properties", payload)]
    clientMSPID := .ok client
    clientID := .ok ⟨.ok "x509::CN=user1::CN=ca"⟩
    peerMSPID := .ok peer }

/-- An invocation of a client of `Org1MSP` on a peer of `Org1MSP` with the
example payload. -/
def ctxOrg1 : Ctx := ctxOf "Org1MSP" "Org1MSP" payloadR1JSON

/-- The same invocation when the identity library cannot give the identifier
of the client. -/
def ctxNoID : Ctx := { ctxOrg1 with clientID := .error "identity unavailable" }

/-- An invocation of a client of `Org1MSP` on a peer of `Org2MSP` with the
example payload. -/
def ctxCross : Ctx := ctxOf "Org1MSP" "Org2MSP" payloadR1JSON

/-- The invocation `ctxCross` when the identity library cannot give the
identifier of the client. -/
def ctxCrossNoID : Ctx := { ctxCross with clientID := .error "identity unavailable" }

/-- The ledger after the example record `R1` was created by `Org1MSP`. -/
def ledgerR1 : Ledger :=
  [⟨"recordCollection", "R1", marshalCSFRecord (shellOf payloadR1)⟩,
   ⟨"Org1MSPPrivateCollection", "R1", marshalCSFRecordPrivateDetails (detailsOf payloadR1)⟩]

/-- The bytes of a payload with an empty `recordId` and an empty `isoNumbers`. -/
def payloadBadJSON : JSON :=
  .obj [("objectType", .str "tag"),
        ("recordId", .str ""),
        ("isoNumbers", .arr []),
        ("createdAtUTC", .num 1000),
        ("premiseId", .str "P1"),
        ("documentType", .str "activation")]

/-- The payload of `payloadBadJSON`, decoded. -/
def payloadBad : recordTransientInput :=
  { ObjectType := "tag"
    RecordID := ""
    ISONumbers := some []
    CreatedAtUTC := 1000
    PremiseID := "P1"
    DocumentType := "activation"
    Revoked := false
    RevocationReason := ""
    Fields := none }

/-- The ledger `ledgerR1` after `R1` was revoked with the reason `lost tag`. -/
def ledgerR1Revoked : Ledger :=
  [⟨"recordCollection", "R1",
      marshalCSFRecord { shellOf payloadR1 with Revoked := true, RevocationReason := "lost tag" }⟩,
   ⟨"Org1MSPPrivateCollection", "R1", marshalCSFRecordPrivateDetails (detailsOf payloadR1)⟩]

/-- A second shared record, `R2`, linked to `A123` and `B7`. -/
def shellR2 : CSFRecord :=
  { ObjectType := "tag"
    RecordID := "R2"
    ISONumbers := some ["B7", "A123"]
    CreatedAtUTC := 2000
    PremiseID := "P1"
    DocumentType := "replacement"
    Revoked := false
    RevocationReason := "" }

/-- A third shared record, `R3`, not linked to `A123`. -/
def shellR3 : CSFRecord :=
  { ObjectType := "tag"
    RecordID := "R3"
    ISONumbers := some ["C9"]
    CreatedAtUTC := 1500
    PremiseID := "P2"
    DocumentType := "activation"
    Revoked := false
    RevocationReason := "" }

/-- A ledger with `R1` of `Org1MSP`, `R3` and `R2` of `Org2MSP`. -/
def ledgerThree : Ledger :=
  [⟨"recordCollection", "R1", marshalCSFRecord (shellOf payloadR1)⟩,
   ⟨"Org1MSPPrivateCollection", "R1", marshalCSFRecordPrivateDetails (detailsOf payloadR1)⟩,
   ⟨"recordCollection", "R3", marshalCSFRecord shellR3⟩,
   ⟨"Org2MSPPrivateCollection", "R3", marshalCSFRecordPrivateDetails ⟨"R3", none⟩⟩,
   ⟨"recordCollection", "R2", marshalCSFRecord shellR2⟩,
   ⟨"Org2MSPPrivateCollection", "R2",
      marshalCSFRecordPrivateDetails ⟨"R2", some [("owner", "Joe")]⟩⟩]

/-- The bytes of the example payload with `revoked` and `revocationReason`
set by the sender. -/
def payloadR1RevokedJSON : JSON :=
  .obj [("objectType", .str "tag"),
        ("recordId", .str "R1"),
        ("isoNumbers", .arr [.str "A123"]),
        ("createdAtUTC", .num 1000),
        ("premiseId", .str "P1"),
        ("documentType", .str "activation"),
        ("revoked", .bool true),
        ("revocationReason", .str "void"),
        ("fields", .obj [("owner", .str "Jane")])]

/-- The payload of `payloadR1RevokedJSON`, decoded. -/
def payloadR1Revoked : recordTransientInput :=
  { payloadR1 with Revoked := true, RevocationReason := "void" }

/-- The invocation `ctxOrg1` with the payload `payloadR1RevokedJSON`. -/
def ctxOrg1Revoked : Ctx := ctxOf "Org1MSP" "Org1MSP" payloadR1RevokedJSON

/-- The pairs of a collection and a key that a ledger holds, in ledger order. -/
def Ledger.keys (s : Ledger) : List (String × String) :=
  s.map (fun e => (e.collection, e.key))

/-- The record `R1` as a client of `Org1MSP` is to receive it. -/
def recordR1 : Record :=
  { ObjectType := "tag"
    RecordID := "R1"
    ISONumbers := some ["A123"]
    CreatedAtUTC := 1000
    PremiseID := "P1"
    DocumentType := "activation"
    Fields := some [("owner", "Jane")]
    Revoked := false
    RevocationReason := "" }

/-- The record `R2` as a client of `Org1MSP` is to receive it: without the
private details, which are of `Org2MSP`. -/
def recordR2 : Record :=
  { ObjectType := "tag"
    RecordID := "R2"
    ISONumbers := some ["B7", "A123"]
    CreatedAtUTC := 2000
    PremiseID := "P1"
    DocumentType := "replacement"
    Fields := some []
    Revoked := false
    RevocationReason := "" }

end CRO

/-! ## Lemmas on the collaborators -/

namespace CRO

theorem length_eq_zero_iff (x : String) : x.length = 0 ↔ x = "" := by
  rw [String.ext_iff]
  show x.data.length = 0 ↔ x.data = []
  exact List.length_eq_zero

theorem orgCollection_ne_empty (m : String) : m ++ "PrivateCollection" ≠ "" := by
  intro h
  have h1 := congrArg String.length h
  rw [String.length_append] at h1
  have h2 : "PrivateCollection".length = 17 := by decide
  have h3 : "".length = 0 := by decide
  omega

theorem orgCollection_ne_recordCollection (m : String) :
    m ++ "PrivateCollection" ≠ recordCollection := by
  intro h
  have h1 := congrArg String.length h
  rw [String.length_append] at h1
  have h2 : "PrivateCollection".length = 17 := by decide
  have h3 : recordCollection.length = 16 := by decide
  omega

theorem orgCollection_injective (a b : String)
    (h : a ++ "PrivateCollection" = b ++ "PrivateCollection") : a = b := by
  rw [String.ext_iff] at h ⊢
  simpa using h

theorem recordCollection_ne_empty : recordCollection ≠ "" := by decide

theorem foldName_objectType : foldName "objectType" = "OBJECTTYPE" := by decide

theorem foldName_recordId : foldName "recordId" = "RECORDID" := by decide

theorem foldName_isoNumbers : foldName "isoNumbers" = "ISONUMBERS" := by decide

theorem foldName_createdAtUTC : foldName "createdAtUTC" = "CREATEDATUTC" := by decide

theorem foldName_premiseId : foldName "premiseId" = "PREMISEID" := by decide

theorem foldName_documentType : foldName "documentType" = "DOCUMENTTYPE" := by decide

theorem foldName_revoked : foldName "revoked" = "REVOKED" := by decide

theorem foldName_revocationReason : foldName "revocationReason" = "REVOCATIONREASON" := by
  decide

theorem foldName_fields : foldName "fields" = "FIELDS" := by decide

theorem decodeStringElems_map_str (xs : List String) :
    decodeStringElems (xs.map JSON.str) = .ok xs := by
  induction xs with
  | nil => rfl
  | cons x xs ih => simp [decodeStringElems, decodeString, ih]

theorem mem_mapSet (m : List (String × String)) (k v : String) (b : String × String)
    (h : b ∈ mapSet m k v) : b = (k, v) ∨ b ∈ m := by
  induction m with
  | nil =>
    simp [mapSet] at h
    exact Or.inl h
  | cons x rest ih =>
    obtain ⟨k1, v1⟩ := x
    unfold mapSet at h
    split_ifs at h with h1 h2
    · rcases List.mem_cons.1 h with h3 | h3
      · exact Or.inl h3
      · exact Or.inr h3
    · rcases List.mem_cons.1 h with h3 | h3
      · exact Or.inl h3
      · exact Or.inr (List.mem_cons_of_mem _ h3)
    · rcases List.mem_cons.1 h with h3 | h3
      · exact Or.inr (h3 ▸ List.mem_cons_self _ _)
      · rcases ih h3 with h4 | h4
        · exact Or.inl h4
        · exact Or.inr (List.mem_cons_of_mem _ h4)

theorem keySorted_mapSet (m : List (String × String)) (k v : String) (h : KeySorted m) :
    KeySorted (mapSet m k v) := by
  induction m with
  | nil => simp [mapSet, KeySorted]
  | cons x rest ih =>
    obtain ⟨k1, v1⟩ := x
    unfold KeySorted at h ih ⊢
    rw [List.pairwise_cons] at h
    unfold mapSet
    split_ifs with h1 h2
    · rw [List.pairwise_cons]
      refine ⟨?_, List.pairwise_cons.2 h⟩
      intro b hb
      rcases List.mem_cons.1 hb with h3 | h3
      · rw [h3]; exact h1
      · exact lt_trans h1 (h.1 b h3)
    · rw [List.pairwise_cons]
      refine ⟨?_, h.2⟩
      intro b hb
      rw [h2]
      exact h.1 b hb
    · rw [List.pairwise_cons]
      refine ⟨?_, ih h.2⟩
      intro b hb
      rcases mem_mapSet rest k v b hb with h3 | h3
      · rw [h3]
        exact lt_of_le_of_ne (not_lt.1 h1) (Ne.symm h2)
      · exact h.1 b h3

theorem mapSet_of_lt (m : List (String × String)) (k v : String)
    (h : ∀ a ∈ m, a.1 < k) : mapSet m k v = m ++ [(k, v)] := by
  induction m with
  | nil => rfl
  | cons x rest ih =>
    obtain ⟨k1, v1⟩ := x
    have hx : k1 < k := h (k1, v1) (List.mem_cons_self _ _)
    unfold mapSet
    rw [if_neg (lt_asymm hx), if_neg (ne_of_gt hx), ih (fun a ha => h a (List.mem_cons_of_mem _ ha))]
    rfl

theorem foldl_mapSet_of_sorted (l : List (String × String)) :
    ∀ acc : List (String × String), KeySorted l → (∀ a ∈ acc, ∀ b ∈ l, a.1 < b.1) →
      l.foldl (fun m kv => mapSet m kv.1 kv.2) acc = acc ++ l := by
  induction l with
  | nil => intro acc _ _; simp
  | cons x rest ih =>
    intro acc hs hlt
    unfold KeySorted at hs
    rw [List.pairwise_cons] at hs
    rw [List.foldl_cons, mapSet_of_lt acc x.1 x.2 (fun a ha => hlt a ha x (List.mem_cons_self _ _)),
      ih (acc ++ [(x.1, x.2)]) hs.2]
    · simp
    · intro a ha b hb
      rcases List.mem_append.1 ha with h1 | h1
      · exact hlt a h1 b (List.mem_cons_of_mem _ hb)
      · rw [List.mem_singleton] at h1
        rw [h1]
        exact hs.1 b hb

theorem sortedEntries_of_sorted (l : List (String × String)) (h : KeySorted l) :
    sortedEntries l = l := by
  unfold sortedEntries
  rw [foldl_mapSet_of_sorted l [] h (by simp)]
  rfl

theorem keySorted_foldl (l : List (String × String)) :
    ∀ acc : List (String × String), KeySorted acc →
      KeySorted (l.foldl (fun m kv => mapSet m kv.1 kv.2) acc) := by
  induction l with
  | nil => intro acc h; exact h
  | cons x rest ih =>
    intro acc h
    exact ih _ (keySorted_mapSet acc x.1 x.2 h)

theorem keySorted_sortedEntries (l : List (String × String)) : KeySorted (sortedEntries l) :=
  keySorted_foldl l [] (by simp [KeySorted])

theorem decodeStringMembers_map_str (kvs : List (String × String)) :
    ∀ m : List (String × String),
      decodeStringMembers m (kvs.map (fun kv => (kv.1, JSON.str kv.2))) =
        .ok (kvs.foldl (fun m kv => mapSet m kv.1 kv.2) m) := by
  induction kvs with
  | nil => intro m; rfl
  | cons x xs ih =>
    intro m
    simp [decodeStringMembers, decodeString, ih]

theorem keySorted_decodeStringMembers (xs : List (String × JSON)) :
    ∀ (m r : List (String × String)), KeySorted m → decodeStringMembers m xs = .ok r →
      KeySorted r := by
  induction xs with
  | nil =>
    intro m r hm h
    simp only [decodeStringMembers, Except.ok.injEq] at h
    exact h ▸ hm
  | cons x rest ih =>
    intro m r hm h
    obtain ⟨k, v⟩ := x
    unfold decodeStringMembers at h
    cases hd : decodeString "" v with
    | error e => simp [hd] at h
    | ok s =>
      simp only [hd] at h
      exact ih _ r (keySorted_mapSet m k s hm) h

theorem decodeStringMap_marshal (fields : Option (List (String × String))) :
    decodeStringMap none (marshalStringMap fields) = .ok (fields.map sortedEntries) := by
  cases fields with
  | none => rfl
  | some kvs =>
    have h : (sortedEntries kvs).foldl (fun m kv => mapSet m kv.1 kv.2) [] = sortedEntries kvs :=
      sortedEntries_of_sorted _ (keySorted_sortedEntries kvs)
    simp only [marshalStringMap, decodeStringMap, Option.getD, decodeStringMembers_map_str,
      Option.map, h]

theorem decodeMembers_marshalCSFRecord (r : CSFRecord) (h : r.CreatedAtUTC < uintSize) :
    ∃ members, marshalCSFRecord r = .obj members ∧
      decodeMembers CSFRecord.setField CSFRecord.zero members = .ok r := by
  refine ⟨_, rfl, ?_⟩
  cases r with
  | mk a b c d e f g i =>
    have h1 : d < uintSize := h
    cases c <;>
    simp [decodeMembers, CSFRecord.setField, decodeString,
      decodeBool, decodeUint, decodeStringSlice, marshalStringSlice, decodeStringElems_map_str,
      CSFRecord.zero, h1, foldName_objectType, foldName_recordId, foldName_isoNumbers,
      foldName_createdAtUTC, foldName_premiseId, foldName_documentType, foldName_revoked,
      foldName_revocationReason]

theorem unmarshal_marshalCSFRecord (r : CSFRecord) (h : r.CreatedAtUTC < uintSize) :
    unmarshalCSFRecord CSFRecord.zero (marshalCSFRecord r) = .ok r := by
  obtain ⟨members, h1, h2⟩ := decodeMembers_marshalCSFRecord r h
  rw [h1]
  exact h2

theorem unmarshalPtr_marshalCSFRecord (r : CSFRecord) (h : r.CreatedAtUTC < uintSize) :
    unmarshalCSFRecordPtr (marshalCSFRecord r) = .ok (some r) := by
  obtain ⟨members, h1, h2⟩ := decodeMembers_marshalCSFRecord r h
  rw [h1]
  simp [unmarshalCSFRecordPtr, h2]

theorem unmarshal_marshalCSFRecordPrivateDetails_sorted (d : CSFRecordPrivateDetails) :
    unmarshalCSFRecordPrivateDetails CSFRecordPrivateDetails.zero
      (marshalCSFRecordPrivateDetails d) =
        .ok { RecordID := d.RecordID, Fields := d.Fields.map sortedEntries } := by
  cases d with
  | mk a b =>
    simp [unmarshalCSFRecordPrivateDetails, marshalCSFRecordPrivateDetails, decodeMembers,
      CSFRecordPrivateDetails.setField, decodeString, decodeStringMap_marshal,
      CSFRecordPrivateDetails.zero, foldName_recordId, foldName_fields]

theorem unmarshal_marshalCSFRecordPrivateDetails (d : CSFRecordPrivateDetails)
    (h : ∀ kvs, d.Fields = some kvs → KeySorted kvs) :
    unmarshalCSFRecordPrivateDetails CSFRecordPrivateDetails.zero
      (marshalCSFRecordPrivateDetails d) = .ok d := by
  rw [unmarshal_marshalCSFRecordPrivateDetails_sorted]
  cases d with
  | mk a b =>
    cases b with
    | none => rfl
    | some kvs => simp [sortedEntries_of_sorted kvs (h kvs rfl)]

theorem lookup_put (s : Ledger) (w : Entry) (c k : String) :
    (s.put w).lookup c k =
      if w.collection = c ∧ w.key = k then some w.value else s.lookup c k := by
  induction s with
  | nil => simp [Ledger.put, Ledger.lookup]
  | cons e rest ih =>
    unfold Ledger.put
    by_cases hw : e.collection = w.collection ∧ e.key = w.key
    · rw [if_pos hw]
      unfold Ledger.lookup
      by_cases hc : w.collection = c ∧ w.key = k
      · rw [if_pos hc, if_pos hc]
      · have : ¬ (e.collection = c ∧ e.key = k) := by
          rw [hw.1, hw.2]; exact hc
        rw [if_neg hc, if_neg hc, if_neg this]
    · rw [if_neg hw]
      unfold Ledger.lookup
      by_cases he : e.collection = c ∧ e.key = k
      · have : ¬ (w.collection = c ∧ w.key = k) := by
          intro h; apply hw; rw [he.1, he.2, h.1, h.2]; exact ⟨rfl, rfl⟩
        rw [if_pos he, if_neg this, if_pos he]
      · rw [if_neg he, ih, if_neg he]

theorem decodeMembers_inv {σ : Type} (set : σ → String → JSON → Except String σ) (P : σ → Prop)
    (hset : ∀ r k v r1, P r → set r k v = .ok r1 → P r1) :
    ∀ (members : List (String × JSON)) (r r1 : σ),
      P r → decodeMembers set r members = .ok r1 → P r1 := by
  intro members
  induction members with
  | nil =>
    intro r r1 hr h
    simp [decodeMembers] at h
    exact h ▸ hr
  | cons m rest ih =>
    intro r r1 hr h
    obtain ⟨k, v⟩ := m
    unfold decodeMembers at h
    cases hs : set r k v with
    | error e => simp [hs] at h
    | ok r2 =>
      simp only [hs] at h
      exact ih r2 r1 (hset r k v r2 hr hs) h

theorem decodeUint_lt (cur : Nat) (v : JSON) (x : Nat) (hcur : cur < uintSize)
    (h : decodeUint cur v = .ok x) : x < uintSize := by
  unfold decodeUint at h
  split at h
  · simp at h; exact h ▸ hcur
  · split at h
    · simp at h; subst h; assumption
    · simp at h
  · simp at h
  · simp at h

theorem recordTransientInput_setField_lt (r : recordTransientInput) (k : String) (v : JSON)
    (r1 : recordTransientInput) (hr : r.CreatedAtUTC < uintSize)
    (h : r.setField k v = .ok r1) : r1.CreatedAtUTC < uintSize := by
  unfold recordTransientInput.setField at h
  split_ifs at h <;> first
    | (cases hd : decodeUint r.CreatedAtUTC v with
       | error e => simp [hd] at h
       | ok x => 
         simp only [hd, Except.ok.injEq] at h
         subst h
         exact decodeUint_lt _ _ _ hr hd)
    | (split at h
       · simp at h
       · simp only [Except.ok.injEq] at h
         subst h
         exact hr)
    | (simp only [Except.ok.injEq] at h
       subst h
       exact hr)

theorem decodedPayload_createdAtUTC_lt (ctx : Ctx) (p : recordTransientInput)
    (h : decodedPayload ctx = .ok p) : p.CreatedAtUTC < uintSize := by
  unfold decodedPayload at h
  split at h
  · simp at h
  · split at h
    · simp at h
    · split at h
      · simp at h
      · rename_i hP
        simp only [Except.ok.injEq] at h
        subst h
        unfold unmarshalRecordTransientInput at hP
        split at hP
        · simp only [Except.ok.injEq] at hP
          subst hP
          decide
        · exact decodeMembers_inv recordTransientInput.setField (fun r => r.CreatedAtUTC < uintSize)
            recordTransientInput_setField_lt _ _ _ (by decide) hP
        · simp at hP

/-! ## The cases of `AddRecord` -/

theorem decodeStringMap_sorted (cur : Option (List (String × String))) (v : JSON)
    (x : Option (List (String × String)))
    (hcur : ∀ kvs, cur = some kvs → KeySorted kvs) (h : decodeStringMap cur v = .ok x) :
    ∀ kvs, x = some kvs → KeySorted kvs := by
  unfold decodeStringMap at h
  split at h
  · simp only [Except.ok.injEq] at h
    subst h
    intro kvs hk
    exact Option.noConfusion hk
  · rename_i members
    cases hd : decodeStringMembers (cur.getD []) members with
    | error e => simp [hd] at h
    | ok r =>
      simp only [hd, Except.ok.injEq] at h
      subst h
      intro kvs hk
      rw [← Option.some.inj hk]
      refine keySorted_decodeStringMembers members _ r ?_ hd
      cases cur with
      | none => simp [KeySorted]
      | some c => exact hcur c rfl
  · simp at h

theorem recordTransientInput_setField_sorted (r : recordTransientInput) (k : String) (v : JSON)
    (r1 : recordTransientInput) (hr : ∀ kvs, r.Fields = some kvs → KeySorted kvs)
    (h : r.setField k v = .ok r1) : ∀ kvs, r1.Fields = some kvs → KeySorted kvs := by
  unfold recordTransientInput.setField at h
  split_ifs at h <;> first
    | (cases hd : decodeStringMap r.Fields v with
       | error e => simp [hd] at h
       | ok x =>
         simp only [hd, Except.ok.injEq] at h
         subst h
         exact decodeStringMap_sorted _ _ _ hr hd)
    | (split at h
       · simp at h
       · simp only [Except.ok.injEq] at h
         subst h
         exact hr)
    | (simp only [Except.ok.injEq] at h
       subst h
       exact hr)

theorem decodedPayload_fields_sorted (ctx : Ctx) (p : recordTransientInput)
    (h : decodedPayload ctx = .ok p) : ∀ kvs, p.Fields = some kvs → KeySorted kvs := by
  unfold decodedPayload at h
  split at h
  · simp at h
  · split at h
    · simp at h
    · split at h
      · simp at h
      · rename_i hP
        simp only [Except.ok.injEq] at h
        subst h
        unfold unmarshalRecordTransientInput at hP
        split at hP
        · simp only [Except.ok.injEq] at hP
          subst hP
          intro kvs hk
          exact Option.noConfusion hk
        · exact decodeMembers_inv recordTransientInput.setField
            (fun r => ∀ kvs, r.Fields = some kvs → KeySorted kvs)
            recordTransientInput_setField_sorted _ _ _
            (fun kvs hk => Option.noConfusion hk) hP
        · simp at hP

theorem firstViolated_eq_none (p : recordTransientInput) (hv : Valid p) :
    firstViolated p = none := by
  unfold firstViolated
  rw [List.find?_eq_none]
  intro f hf
  simp [hv f hf]


theorem AddRecord_of_no_payload (ctx : Ctx) (s : Ledger) (e : Err)
    (h : decodedPayload ctx = .error e) : AddRecord ctx s = (.error e, []) := by
  unfold decodedPayload at h
  unfold AddRecord
  split at h
  · simp_all
  · split at h
    · simp_all
    · split at h
      · simp_all
      · simp at h

theorem AddRecord_of_payload (ctx : Ctx) (s : Ledger) (p : recordTransientInput)
    (h : decodedPayload ctx = .ok p) :
    AddRecord ctx s =
      match firstViolated p with
      | some f => (.error (.mustBeNonEmpty f), [])
      | none =>
        match s.lookup recordCollection p.RecordID with
        | some _ => (.error (.alreadyExists p.RecordID), [])
        | none =>
          match submittingClientIdentity ctx with
          | .error e => (.error e, [])
          | .ok _ =>
            match verifyClientOrgMatchesPeerOrg ctx with
            | .error e => (.error (.createCannotBePerformed e), [])
            | .ok _ =>
              match ctx.clientMSPID with
              | .error e => (.error (.inferCollection (.verifiedMSPID e)), [⟨recordCollection, p.RecordID, marshalCSFRecord (shellOf p)⟩])
              | .ok org => (.ok (), [⟨recordCollection, p.RecordID, marshalCSFRecord (shellOf p)⟩,
                    ⟨org ++ "PrivateCollection", p.RecordID, marshalCSFRecordPrivateDetails (detailsOf p)⟩]) := by
  unfold decodedPayload at h
  unfold AddRecord
  cases hT : ctx.transient with
  | error e => simp [hT] at h
  | ok tm =>
    simp only [hT] at h ⊢
    cases hJ : mapIndex tm "record_properties" with
    | none => simp [hJ] at h
    | some j =>
      simp only [hJ] at h ⊢
      cases hP : unmarshalRecordTransientInput recordTransientInput.zero j with
      | error e => simp [hP] at h
      | ok p2 =>
        simp only [hP, Except.ok.injEq] at h ⊢
        subst h
        by_cases h1 : p2.ObjectType = ""
        · simp [firstViolated, requirements, violates, length_eq_zero_iff, h1]
        by_cases h2 : p2.RecordID = ""
        · simp [firstViolated, requirements, violates, length_eq_zero_iff, h1, h2]
        by_cases h3 : len p2.ISONumbers = 0
        · simp [firstViolated, requirements, violates, length_eq_zero_iff, h1, h2, h3]
        by_cases h4 : p2.CreatedAtUTC = 0
        · simp [firstViolated, requirements, violates, length_eq_zero_iff, h1, h2, h3, h4]
        by_cases h5 : p2.PremiseID = ""
        · simp [firstViolated, requirements, violates, length_eq_zero_iff, h1, h2, h3, h4, h5]
        by_cases h6 : p2.DocumentType = ""
        · simp [firstViolated, requirements, violates, length_eq_zero_iff, h1, h2, h3, h4, h5, h6]
        simp only [firstViolated, requirements, violates, length_eq_zero_iff, h1, h2, h3, h4, h5, h6,
          List.find?, decide_False, if_false, GetPrivateData, recordCollection_ne_empty]
        cases hL : Ledger.lookup s recordCollection p2.RecordID with
        | some d => simp
        | none =>
          simp only []
          cases hI : submittingClientIdentity ctx with
          | error e => simp
          | ok id =>
            simp only []
            cases hV : verifyClientOrgMatchesPeerOrg ctx with
            | error e => simp
            | ok u =>
              simp only [PutPrivateData, recordCollection_ne_empty, h2, if_false, getCollectionName]
              cases hC : ctx.clientMSPID with
              | error e => simp [shellOf]
              | ok org => simp [shellOf, detailsOf, orgCollection_ne_empty, h2]

theorem RevokeRecord_eq (ctx : Ctx) (s : Ledger) (r R : String) :
    RevokeRecord ctx s r R =
      if r = "" then (.error (.mustBeNonEmpty .recordId), [])
      else
        match s.lookup recordCollection r with
        | none => (.error (.doesNotExist r), [])
        | some doc =>
          match unmarshalCSFRecord CSFRecord.zero doc with
          | .error e => (.error (.unmarshalRecord e), [])
          | .ok record =>
            if record.Revoked = true then (.error .alreadyRevoked, [])
            else (.ok (), [⟨recordCollection, r,
              marshalCSFRecord { record with Revoked := true, RevocationReason := R }⟩]) := by
  unfold RevokeRecord
  by_cases hr : r = ""
  · simp [hr]
  · simp only [length_eq_zero_iff, hr, if_false, GetPrivateData, recordCollection_ne_empty]
    cases hL : Ledger.lookup s recordCollection r with
    | none => simp
    | some doc =>
      simp only []
      cases hU : unmarshalCSFRecord CSFRecord.zero doc with
      | error e => simp
      | ok record =>
        cases hrev : record.Revoked <;> simp [PutPrivateData, recordCollection_ne_empty, hr, hrev]

theorem submittingClientIdentity_ne_mustBeNonEmpty (ctx : Ctx) (f : Field) :
    submittingClientIdentity ctx ≠ .error (.mustBeNonEmpty f) := by
  unfold submittingClientIdentity
  cases ctx.clientID with
  | error e => simp
  | ok b =>
    cases hd : b.DecodeString <;> simp [hd]

theorem valid_of_firstViolated_eq_none (p : recordTransientInput) (h : firstViolated p = none) :
    Valid p := by
  unfold firstViolated at h
  rw [List.find?_eq_none] at h
  intro f hf
  simpa using h f hf

theorem verify_ok_iff (ctx : Ctx) :
    verifyClientOrgMatchesPeerOrg ctx = .ok () ↔
      ∃ org, ctx.clientMSPID = .ok org ∧ ctx.peerMSPID = .ok org := by
  unfold verifyClientOrgMatchesPeerOrg
  cases hc : ctx.clientMSPID with
  | error e => simp
  | ok c =>
    cases hp : ctx.peerMSPID with
    | error e => simp
    | ok q =>
      by_cases h : c = q
      · simp [h]
      · simp [h, Ne.symm h]

theorem AddRecord_ok_inv (ctx : Ctx) (s : Ledger) (h : (AddRecord ctx s).1 = .ok ()) :
    ∃ p org, decodedPayload ctx = .ok p ∧ Valid p ∧
      s.lookup recordCollection p.RecordID = none ∧
      ctx.clientMSPID = .ok org ∧ ctx.peerMSPID = .ok org ∧
      AddRecord ctx s = (.ok (),
        [⟨recordCollection, p.RecordID, marshalCSFRecord (shellOf p)⟩,
         ⟨org ++ "PrivateCollection", p.RecordID, marshalCSFRecordPrivateDetails (detailsOf p)⟩]) := by
  cases hp : decodedPayload ctx with
  | error e => rw [AddRecord_of_no_payload ctx s e hp] at h; simp at h
  | ok p =>
    have hadd := AddRecord_of_payload ctx s p hp
    rw [hadd] at h
    cases hfv : firstViolated p with
    | some f => simp [hfv] at h
    | none =>
      cases hL : Ledger.lookup s recordCollection p.RecordID with
      | some d => simp [hfv, hL] at h
      | none =>
        cases hI : submittingClientIdentity ctx with
        | error e => simp [hfv, hL, hI] at h
        | ok i =>
          cases hV : verifyClientOrgMatchesPeerOrg ctx with
          | error e => simp [hfv, hL, hI, hV] at h
          | ok u =>
            obtain ⟨org, hc, hq⟩ := (verify_ok_iff ctx).1 hV
            refine ⟨p, org, rfl, valid_of_firstViolated_eq_none p hfv, hL, hc, hq, ?_⟩
            rw [hadd]
            simp [hfv, hL, hI, hV, hc]

/-! ## The ledger after one invocation -/

theorem CSFRecord_setField_lt (r : CSFRecord) (k : String) (v : JSON)
    (r1 : CSFRecord) (hr : r.CreatedAtUTC < uintSize)
    (h : r.setField k v = .ok r1) : r1.CreatedAtUTC < uintSize := by
  unfold CSFRecord.setField at h
  split_ifs at h <;> first
    | (cases hd : decodeUint r.CreatedAtUTC v with
       | error e => simp [hd] at h
       | ok x =>
         simp only [hd, Except.ok.injEq] at h
         subst h
         exact decodeUint_lt _ _ _ hr hd)
    | (split at h
       · simp at h
       · simp only [Except.ok.injEq] at h
         subst h
         exact hr)
    | (simp only [Except.ok.injEq] at h
       subst h
       exact hr)

theorem unmarshalCSFRecord_lt (doc : JSON) (record : CSFRecord)
    (h : unmarshalCSFRecord CSFRecord.zero doc = .ok record) :
    record.CreatedAtUTC < uintSize := by
  unfold unmarshalCSFRecord at h
  split at h
  · simp only [Except.ok.injEq] at h
    subst h
    decide
  · exact decodeMembers_inv CSFRecord.setField (fun r => r.CreatedAtUTC < uintSize)
      CSFRecord_setField_lt _ _ _ (by decide) h
  · simp at h

theorem mem_of_lookup (s : Ledger) (c k : String) (doc : JSON)
    (h : s.lookup c k = some doc) : ∃ e ∈ s, e.collection = c ∧ e.key = k ∧ e.value = doc := by
  induction s with
  | nil => simp [Ledger.lookup] at h
  | cons e rest ih =>
    unfold Ledger.lookup at h
    by_cases he : e.collection = c ∧ e.key = k
    · rw [if_pos he] at h
      exact ⟨e, List.mem_cons_self _ _, he.1, he.2, Option.some.inj h⟩
    · rw [if_neg he] at h
      obtain ⟨e1, hm, h1⟩ := ih h
      exact ⟨e1, List.mem_cons_of_mem _ hm, h1⟩

theorem lookup_eq_none_of_not_mem (s : Ledger) (c k : String)
    (h : ∀ e ∈ s, ¬ (e.collection = c ∧ e.key = k)) : s.lookup c k = none := by
  cases hl : s.lookup c k with
  | none => rfl
  | some doc =>
    obtain ⟨e, hm, h1, h2, _⟩ := mem_of_lookup s c k doc hl
    exact absurd ⟨h1, h2⟩ (h e hm)

theorem mem_put (s : Ledger) (w e : Entry) (h : e ∈ s.put w) : e = w ∨ e ∈ s := by
  induction s with
  | nil =>
    simp [Ledger.put] at h
    exact Or.inl h
  | cons x rest ih =>
    unfold Ledger.put at h
    by_cases hx : x.collection = w.collection ∧ x.key = w.key
    · rw [if_pos hx] at h
      rcases List.mem_cons.1 h with h1 | h1
      · exact Or.inl h1
      · exact Or.inr (List.mem_cons_of_mem _ h1)
    · rw [if_neg hx] at h
      rcases List.mem_cons.1 h with h1 | h1
      · exact Or.inr (h1 ▸ List.mem_cons_self _ _)
      · rcases ih h1 with h2 | h2
        · exact Or.inl h2
        · exact Or.inr (List.mem_cons_of_mem _ h2)

theorem after_of_ok {α : Type} (s : Ledger) (out : Except Err α × List Entry) (a : α)
    (h : out.1 = .ok a) : s.after out = s.commit out.2 := by
  unfold Ledger.after
  rw [h]

theorem after_of_error {α : Type} (s : Ledger) (out : Except Err α × List Entry) (e : Err)
    (h : out.1 = .error e) : s.after out = s := by
  unfold Ledger.after
  rw [h]

theorem after_nil {α : Type} (s : Ledger) (out : Except Err α) : s.after (out, []) = s := by
  cases out <;> rfl

theorem step_getRecord (s : Ledger) (ctx : Ctx) (r : String) :
    step s (.getRecord ctx r) = s :=
  after_nil s _

theorem step_getRecords (s : Ledger) (ctx : Ctx) (x : String) (a b l : Nat) :
    step s (.getRecords ctx x a b l) = s :=
  after_nil s _

theorem step_of_error_addRecord (s : Ledger) (ctx : Ctx) (e : Err) (ws : List Entry)
    (h : AddRecord ctx s = (.error e, ws)) : step s (.addRecord ctx) = s :=
  after_of_error s _ e (by rw [h])

theorem step_of_error_revokeRecord (s : Ledger) (ctx : Ctx) (r R : String) (e : Err)
    (ws : List Entry) (h : RevokeRecord ctx s r R = (.error e, ws)) :
    step s (.revokeRecord ctx r R) = s :=
  after_of_error s _ e (by rw [h])

theorem step_addRecord_cases (s : Ledger) (ctx : Ctx) :
    ((∃ e, (AddRecord ctx s).1 = .error e) ∧ step s (.addRecord ctx) = s) ∨
    ∃ p org, decodedPayload ctx = .ok p ∧ Valid p ∧
      s.lookup recordCollection p.RecordID = none ∧
      ctx.clientMSPID = .ok org ∧ ctx.peerMSPID = .ok org ∧
      (AddRecord ctx s).1 = .ok () ∧
      step s (.addRecord ctx) =
        (s.put ⟨recordCollection, p.RecordID, marshalCSFRecord (shellOf p)⟩).put
          ⟨org ++ "PrivateCollection", p.RecordID,
            marshalCSFRecordPrivateDetails (detailsOf p)⟩ := by
  cases h : (AddRecord ctx s).1 with
  | error e =>
    left
    exact ⟨⟨e, rfl⟩, after_of_error s _ e h⟩
  | ok u =>
    right
    obtain ⟨p, org, h1, h2, h3, h4, h5, h6⟩ := AddRecord_ok_inv ctx s h
    refine ⟨p, org, h1, h2, h3, h4, h5, rfl, ?_⟩
    show s.after (AddRecord ctx s) = _
    rw [after_of_ok s _ u h, h6]
    rfl

theorem step_revokeRecord_cases (s : Ledger) (ctx : Ctx) (r R : String) :
    ((∃ e, (RevokeRecord ctx s r R).1 = .error e) ∧ step s (.revokeRecord ctx r R) = s) ∨
    ∃ doc record, r ≠ "" ∧ s.lookup recordCollection r = some doc ∧
      unmarshalCSFRecord CSFRecord.zero doc = .ok record ∧ record.Revoked = false ∧
      (RevokeRecord ctx s r R).1 = .ok () ∧
      step s (.revokeRecord ctx r R) =
        s.put ⟨recordCollection, r,
          marshalCSFRecord { record with Revoked := true, RevocationReason := R }⟩ := by
  have heq := RevokeRecord_eq ctx s r R
  by_cases hr : r = ""
  · left
    rw [if_pos hr] at heq
    exact ⟨⟨_, by rw [heq]⟩, step_of_error_revokeRecord s ctx r R _ _ heq⟩
  · rw [if_neg hr] at heq
    cases hL : Ledger.lookup s recordCollection r with
    | none =>
      left
      simp only [hL] at heq
      exact ⟨⟨_, by rw [heq]⟩, step_of_error_revokeRecord s ctx r R _ _ heq⟩
    | some doc =>
      simp only [hL] at heq
      cases hU : unmarshalCSFRecord CSFRecord.zero doc with
      | error e =>
        left
        simp only [hU] at heq
        exact ⟨⟨_, by rw [heq]⟩, step_of_error_revokeRecord s ctx r R _ _ heq⟩
      | ok record =>
        simp only [hU] at heq
        cases hrev : record.Revoked with
        | true =>
          left
          simp only [hrev, if_true] at heq
          exact ⟨⟨_, by rw [heq]⟩, step_of_error_revokeRecord s ctx r R _ _ heq⟩
        | false =>
          right
          simp only [hrev] at heq
          have hok : (RevokeRecord ctx s r R).1 = .ok () := by rw [heq]; rfl
          refine ⟨doc, record, hr, rfl, hU, hrev, hok, ?_⟩
          show s.after (RevokeRecord ctx s r R) = _
          rw [after_of_ok s _ () hok, heq]
          rfl

theorem lookup_step_of_revoked (s : Ledger) (r : String) (doc : JSON) (record : CSFRecord)
    (hdoc : s.lookup recordCollection r = some doc)
    (hrec : unmarshalCSFRecord CSFRecord.zero doc = .ok record)
    (hrev : record.Revoked = true) (call : Call) :
    (step s call).lookup recordCollection r = some doc := by
  cases call with
  | getRecord ctx x => rw [step_getRecord]; exact hdoc
  | getRecords ctx x a b l => rw [step_getRecords]; exact hdoc
  | addRecord ctx =>
    rcases step_addRecord_cases s ctx with ⟨_, h⟩ | ⟨p, org, _, _, hfresh, _, _, _, h⟩
    · rw [h]; exact hdoc
    · have hne : p.RecordID ≠ r := by
        intro heq
        rw [heq, hdoc] at hfresh
        exact Option.noConfusion hfresh
      rw [h, lookup_put, lookup_put]
      simp [hne, orgCollection_ne_recordCollection, hdoc]
  | revokeRecord ctx x R =>
    rcases step_revokeRecord_cases s ctx x R with ⟨_, h⟩ | ⟨doc1, rec1, _, hl, hu, hnr, _, h⟩
    · rw [h]; exact hdoc
    · have hne : x ≠ r := by
        intro heq
        rw [heq, hdoc] at hl
        have := Option.some.inj hl
        subst this
        rw [hrec] at hu
        have := Except.ok.inj hu
        subst this
        rw [hrev] at hnr
        exact Bool.noConfusion hnr
      rw [h, lookup_put]
      simp [hne, hdoc]

theorem sharedRecord_eq_some_iff (s : Ledger) (r : String) (record : CSFRecord) :
    sharedRecord s r = some record ↔
      ∃ doc, s.lookup recordCollection r = some doc ∧
        unmarshalCSFRecord CSFRecord.zero doc = .ok record := by
  unfold sharedRecord
  cases hL : Ledger.lookup s recordCollection r with
  | none => simp
  | some doc =>
    cases hU : unmarshalCSFRecord CSFRecord.zero doc with
    | error e => simp [hU]
    | ok r1 => simp [hU]

theorem key_ne_empty_of_lookup (s : Ledger) (hwf : s.WellFormed) (c k : String) (doc : JSON)
    (h : s.lookup c k = some doc) : k ≠ "" := by
  obtain ⟨e, hm, _, hk, _⟩ := mem_of_lookup s c k doc h
  exact hk ▸ (hwf e hm).2

theorem run_nil (s : Ledger) : run s [] = s := rfl

theorem run_cons (s : Ledger) (c : Call) (cs : List Call) :
    run s (c :: cs) = run (step s c) cs := rfl

theorem run_append (s : Ledger) (cs ds : List Call) :
    run s (cs ++ ds) = run (run s cs) ds := by
  unfold run
  rw [List.foldl_append]

/-! ## The loop of `GetRecords` -/

theorem GetRecords_eq (ctx : Ctx) (s : Ledger) (X : String) (f t L : Nat) (hX : X ≠ "") :
    GetRecords ctx s X f t L = GetRecords.loop ctx s L (queryResults s X f t) [] 0 := by
  unfold GetRecords
  simp [length_eq_zero_iff, hX, GetPrivateDataQueryResult, recordCollection_ne_empty, queryResults]

theorem loop_unbounded (ctx : Ctx) (s : Ledger) :
    ∀ (qs : List (String × JSON)) (acc : List Record) (c : Nat),
      GetRecords.loop ctx s 0 qs acc c =
        match collect ctx s qs with
        | .error e => .error e
        | .ok rs => .ok (acc ++ rs) := by
  intro qs
  induction qs with
  | nil => intro acc c; simp [GetRecords.loop, collect]
  | cons q rest ih =>
    intro acc c
    unfold GetRecords.loop collect
    cases hi : GetRecords.item ctx s q with
    | error e => simp
    | ok r =>
      simp only [Nat.lt_irrefl, false_and, if_false, gt_iff_lt]
      rw [ih]
      cases collect ctx s rest <;> simp

theorem loop_bounded (ctx : Ctx) (s : Ledger) (L : Nat) (hL : L < uintSize) :
    ∀ (qs : List (String × JSON)) (acc : List Record) (c : Nat), c < L →
      GetRecords.loop ctx s L qs acc c =
        match collect ctx s (qs.take (L - c)) with
        | .error e => .error e
        | .ok rs => .ok (acc ++ rs) := by
  intro qs
  induction qs with
  | nil => intro acc c _; simp [GetRecords.loop, collect]
  | cons q rest ih =>
    intro acc c hc
    have hpos : 0 < L := by omega
    obtain ⟨k, hk⟩ : ∃ k, L - c = k + 1 := ⟨L - c - 1, by omega⟩
    have hmod : (c + 1) % uintSize = c + 1 := Nat.mod_eq_of_lt (by omega)
    rw [hk, List.take_succ_cons]
    unfold GetRecords.loop collect
    cases hi : GetRecords.item ctx s q with
    | error e => simp
    | ok r =>
      simp only [hmod]
      by_cases hstop : c + 1 ≥ L
      · have hk0 : k = 0 := by omega
        simp [hpos, hstop, hk0, collect]
      · have hlt : c + 1 < L := by omega
        have hk1 : L - (c + 1) = k := by omega
        simp only [gt_iff_lt, hpos, hstop, and_false, if_false, true_and]
        rw [ih (acc ++ [r]) (c + 1) hlt, hk1]
        cases collect ctx s (List.take k rest) <;> simp

theorem collect_length (ctx : Ctx) (s : Ledger) :
    ∀ (qs : List (String × JSON)) (rs : List Record),
      collect ctx s qs = .ok rs → rs.length = qs.length := by
  intro qs
  induction qs with
  | nil => intro rs h; simp [collect] at h; subst h; rfl
  | cons q rest ih =>
    intro rs h
    unfold collect at h
    cases hi : GetRecords.item ctx s q with
    | error e => simp [hi] at h
    | ok r =>
      cases hc : collect ctx s rest with
      | error e => simp [hi, hc] at h
      | ok rs1 =>
        simp [hi, hc] at h
        subst h
        simp [ih rs1 hc]

theorem collect_take (ctx : Ctx) (s : Ledger) :
    ∀ (qs : List (String × JSON)) (rs : List Record) (k : Nat),
      collect ctx s qs = .ok rs → collect ctx s (qs.take k) = .ok (rs.take k) := by
  intro qs
  induction qs with
  | nil => intro rs k h; simp [collect] at h; subst h; simp [collect]
  | cons q rest ih =>
    intro rs k h
    unfold collect at h
    cases hi : GetRecords.item ctx s q with
    | error e => simp [hi] at h
    | ok r =>
      cases hc : collect ctx s rest with
      | error e => simp [hi, hc] at h
      | ok rs1 =>
        simp [hi, hc] at h
        subst h
        cases k with
        | zero => simp [collect]
        | succ k =>
          simp [collect, hi, ih rs1 k hc]

/-! ## The query of `GetRecords` on encoded records -/

theorem any_map_str (xs : List String) (X : String) :
    (xs.map JSON.str).any (fun x => match x with | .str s => decide (s ∈ [X]) | _ => false) =
      decide (X ∈ xs) := by
  induction xs with
  | nil => simp
  | cons x rest ih =>
    rw [List.map_cons, List.any_cons, ih]
    by_cases h : x = X
    · simp [h]
    · simp [h, Ne.symm h]

theorem matches_marshalCSFRecord (X : String) (f t : Nat) (record : CSFRecord) :
    (GetRecords.selector X f t).matches (marshalCSFRecord record) = selected X f t record := by
  have hiso : mangoIn [X] (marshalStringSlice record.ISONumbers) =
      decide (X ∈ record.ISONumbers.getD []) := by
    cases h : record.ISONumbers with
    | none => simp [marshalStringSlice, mangoIn]
    | some xs => exact any_map_str xs X
  unfold Selector.matches selected marshalCSFRecord
  by_cases hd : f ≠ 0 ∧ t ≠ 0
  · have hsel : GetRecords.selector X f t = { isoNumbersIn := [X], createdAtUTC := some (f, t) } := by
      unfold GetRecords.selector
      rw [if_pos hd]
    rw [hsel, if_pos hd]
    simp [JSON.member, mapIndex, hiso, mangoGte, mangoLte, Int.ofNat_le]
  · have hsel : GetRecords.selector X f t = { isoNumbersIn := [X], createdAtUTC := none } := by
      unfold GetRecords.selector
      rw [if_neg hd]
    rw [hsel, if_neg hd]
    simp [JSON.member, mapIndex, hiso]


theorem item_shell (ctx : Ctx) (s : Ledger) (k : String) (record : CSFRecord)
    (hlt : record.CreatedAtUTC < uintSize) (r : Record)
    (h : GetRecords.item ctx s (k, marshalCSFRecord record) = .ok r) : r.shell = record := by
  unfold GetRecords.item at h
  simp only [unmarshal_marshalCSFRecord record hlt] at h
  cases hc : getCollectionName ctx with
  | error e => simp [hc] at h
  | ok c =>
    simp only [hc] at h
    cases hg : GetPrivateData s c record.RecordID with
    | error e => simp [hg] at h
    | ok o =>
      cases o with
      | none =>
        simp only [hg, Except.ok.injEq] at h
        subst h
        rfl
      | some bytes =>
        simp only [hg] at h
        cases hu : unmarshalCSFRecordPrivateDetails CSFRecordPrivateDetails.zero bytes with
        | error e => simp [hu] at h
        | ok d =>
          simp only [hu, Except.ok.injEq] at h
          subst h
          rfl

theorem item_ok (ctx : Ctx) (s : Ledger) (k : String) (record : CSFRecord) (org : String)
    (hlt : record.CreatedAtUTC < uintSize) (hc : ctx.clientMSPID = .ok org)
    (hpriv : PrivateDecodable s (org ++ "PrivateCollection")) :
    ∃ r, GetRecords.item ctx s (k, marshalCSFRecord record) = .ok r := by
  unfold GetRecords.item
  simp only [unmarshal_marshalCSFRecord record hlt, getCollectionName, hc, GetPrivateData,
    orgCollection_ne_empty, if_false]
  cases hl : Ledger.lookup s (org ++ "PrivateCollection") record.RecordID with
  | none => exact ⟨_, rfl⟩
  | some bytes =>
    obtain ⟨e, hm, h1, _, h3⟩ := mem_of_lookup s _ _ bytes hl
    obtain ⟨d, hd⟩ := hpriv e hm h1
    rw [h3] at hd
    simp only [hd]
    exact ⟨_, rfl⟩

theorem collect_shells (ctx : Ctx) (s : Ledger) (X : String) (f t : Nat) :
    ∀ (l : List Entry),
      (∀ e ∈ l, e.collection = recordCollection →
        ∃ record : CSFRecord, record.CreatedAtUTC < uintSize ∧ e.value = marshalCSFRecord record) →
      ∀ rs, collect ctx s ((l.filter (fun e => decide (e.collection = recordCollection) &&
          (GetRecords.selector X f t).matches e.value)).map (fun e => (e.key, e.value))) = .ok rs →
        rs.map Record.shell = (sharedRecords l).filter (selected X f t) := by
  intro l
  induction l with
  | nil =>
    intro _ rs h
    simp [collect] at h
    subst h
    rfl
  | cons e rest ih =>
    intro hwf rs h
    have hrest := fun x hx => hwf x (List.mem_cons_of_mem _ hx)
    by_cases hcoll : e.collection = recordCollection
    · obtain ⟨record, hlt, hval⟩ := hwf e (List.mem_cons_self _ _) hcoll
      have hdec : sharedRecords (e :: rest) = record :: sharedRecords rest := by
        simp [sharedRecords, hcoll, hval, unmarshal_marshalCSFRecord record hlt]
      rw [hdec]
      by_cases hsel : selected X f t record = true
      · have hfil : (e :: rest).filter (fun e => decide (e.collection = recordCollection) &&
            (GetRecords.selector X f t).matches e.value) =
            e :: rest.filter (fun e => decide (e.collection = recordCollection) &&
              (GetRecords.selector X f t).matches e.value) := by
          rw [List.filter_cons_of_pos]
          simp [hcoll, hval, matches_marshalCSFRecord, hsel]
        rw [hfil, List.map_cons] at h
        unfold collect at h
        cases hi : GetRecords.item ctx s (e.key, e.value) with
        | error err => simp [hi] at h
        | ok r =>
          cases hcol : collect ctx s ((rest.filter (fun e =>
              decide (e.collection = recordCollection) &&
              (GetRecords.selector X f t).matches e.value)).map (fun e => (e.key, e.value))) with
          | error err => simp [hi, hcol] at h
          | ok rs1 =>
            simp only [hi, hcol, Except.ok.injEq] at h
            subst h
            rw [hval] at hi
            rw [List.map_cons, item_shell ctx s e.key record hlt r hi, ih hrest rs1 hcol,
              List.filter_cons_of_pos hsel]
      · have hfil : (e :: rest).filter (fun e => decide (e.collection = recordCollection) &&
            (GetRecords.selector X f t).matches e.value) =
            rest.filter (fun e => decide (e.collection = recordCollection) &&
              (GetRecords.selector X f t).matches e.value) := by
          rw [List.filter_cons_of_neg]
          simp [hval, matches_marshalCSFRecord, hsel]
        rw [hfil] at h
        rw [List.filter_cons_of_neg hsel]
        exact ih hrest rs h
    · have hfil : (e :: rest).filter (fun e => decide (e.collection = recordCollection) &&
          (GetRecords.selector X f t).matches e.value) =
          rest.filter (fun e => decide (e.collection = recordCollection) &&
            (GetRecords.selector X f t).matches e.value) := by
        rw [List.filter_cons_of_neg]
        simp [hcoll]
      have hdec : sharedRecords (e :: rest) = sharedRecords rest := by
        simp [sharedRecords, hcoll]
      rw [hfil] at h
      rw [hdec]
      exact ih hrest rs h

theorem collect_ok (ctx : Ctx) (s : Ledger) (org : String) (hc : ctx.clientMSPID = .ok org)
    (hpriv : PrivateDecodable s (org ++ "PrivateCollection")) :
    ∀ (qs : List (String × JSON)),
      (∀ q ∈ qs, ∃ record : CSFRecord, record.CreatedAtUTC < uintSize ∧
        q.2 = marshalCSFRecord record) →
      ∃ rs, collect ctx s qs = .ok rs := by
  intro qs
  induction qs with
  | nil => intro _; exact ⟨[], rfl⟩
  | cons q rest ih =>
    intro h
    obtain ⟨record, hlt, hq⟩ := h q (List.mem_cons_self _ _)
    obtain ⟨rs, hrs⟩ := ih (fun x hx => h x (List.mem_cons_of_mem _ hx))
    obtain ⟨r, hr⟩ := item_ok ctx s q.1 record org hlt hc hpriv
    have hq2 : q = (q.1, marshalCSFRecord record) := by rw [← hq]
    refine ⟨r :: rs, ?_⟩
    unfold collect
    rw [hq2, hr, hrs]

theorem queryResults_marshalled (s : Ledger) (X : String) (f t : Nat) (hs : SharedWellFormed s) :
    ∀ q ∈ queryResults s X f t, ∃ record : CSFRecord, record.CreatedAtUTC < uintSize ∧
      q.2 = marshalCSFRecord record := by
  intro q hq
  unfold queryResults at hq
  rw [List.mem_map] at hq
  obtain ⟨e, he, rfl⟩ := hq
  rw [List.mem_filter] at he
  have hcoll : e.collection = recordCollection := by
    have := he.2
    simp only [Bool.and_eq_true, decide_eq_true_eq] at this
    exact this.1
  exact hs e he.1 hcoll

/-! ## The invariant of the reachable ledgers -/

theorem creation_of_error (ctx : Ctx) (s : Ledger) (e : Err)
    (h : (AddRecord ctx s).1 = .error e) : creation ctx s = none := by
  unfold creation
  rw [h]

theorem creation_of_ok (ctx : Ctx) (s : Ledger) (p : recordTransientInput) (org : String)
    (h : (AddRecord ctx s).1 = .ok ()) (hp : decodedPayload ctx = .ok p)
    (hc : ctx.clientMSPID = .ok org) : creation ctx s = some (p.RecordID, org) := by
  unfold creation
  rw [h, hp, hc]

theorem lookup_put_ne_none (s : Ledger) (w : Entry) (c k : String)
    (h : s.lookup c k ≠ none) : (s.put w).lookup c k ≠ none := by
  rw [lookup_put]
  split
  · simp
  · exact h

theorem shellOf_sound (ctx : Ctx) (p : recordTransientInput) (hp : decodedPayload ctx = .ok p)
    (hv : Valid p) : (shellOf p).Sound p.RecordID := by
  have hlt := decodedPayload_createdAtUTC_lt ctx p hp
  have h1 := hv .objectType (by decide)
  have h2 := hv .recordId (by decide)
  have h3 := hv .isoNumbers (by decide)
  have h4 := hv .createdAtUTC (by decide)
  have h5 := hv .premiseId (by decide)
  have h6 := hv .documentType (by decide)
  simp only [violates, decide_eq_false_iff_not] at h1 h2 h3 h4 h5 h6
  exact ⟨rfl, hlt, h1, h2, h3, h4, h5, h6, fun _ => rfl⟩

theorem inv_empty : Inv [] [] where
  shared := by intro e he; simp at he
  priv := by intro e he; simp at he
  created := by intro r org h; simp at h
  unique := by intro r a b h; simp at h

theorem inv_addRecord (s : Ledger) (cr : List (String × String)) (ctx : Ctx) (h : Inv s cr) :
    Inv (step s (.addRecord ctx)) (cr ++ (creation ctx s).toList) := by
  rcases step_addRecord_cases s ctx with ⟨⟨e, he⟩, hstep⟩ |
    ⟨p, org, hp, hv, hfresh, hc, _, hok, hstep⟩
  · rw [hstep, creation_of_error ctx s e he]
    simpa using h
  · rw [hstep, creation_of_ok ctx s p org hok hp hc]
    simp only [Option.toList]
    have hne := orgCollection_ne_recordCollection org
    constructor
    · intro e he hcoll
      rcases mem_put _ _ _ he with rfl | he1
      · exact absurd hcoll hne
      · rcases mem_put _ _ _ he1 with rfl | he2
        · exact ⟨shellOf p, rfl, shellOf_sound ctx p hp hv⟩
        · exact h.shared e he2 hcoll
    · intro e he hcoll
      rcases mem_put _ _ _ he with rfl | he1
      · exact ⟨org, detailsOf p, rfl, by simp, rfl, rfl⟩
      · rcases mem_put _ _ _ he1 with rfl | he2
        · exact absurd rfl hcoll
        · obtain ⟨o, d, h1, h2, h3, h4⟩ := h.priv e he2 hcoll
          exact ⟨o, d, h1, List.mem_append_left _ h2, h3, h4⟩
    · intro r o hmem
      rcases List.mem_append.1 hmem with hold | hnew
      · obtain ⟨h1, h2⟩ := h.created r o hold
        exact ⟨lookup_put_ne_none _ _ _ _ (lookup_put_ne_none _ _ _ _ h1),
          lookup_put_ne_none _ _ _ _ (lookup_put_ne_none _ _ _ _ h2)⟩
      · simp only [List.mem_singleton, Prod.mk.injEq] at hnew
        obtain ⟨rfl, rfl⟩ := hnew
        constructor
        · rw [lookup_put, lookup_put]
          simp [hne]
        · rw [lookup_put]
          simp
    · intro r a b ha hb
      rcases List.mem_append.1 ha with ha1 | ha2
      · rcases List.mem_append.1 hb with hb1 | hb2
        · exact h.unique r a b ha1 hb1
        · simp only [List.mem_singleton, Prod.mk.injEq] at hb2
          obtain ⟨rfl, rfl⟩ := hb2
          exact absurd hfresh (h.created _ a ha1).1
      · simp only [List.mem_singleton, Prod.mk.injEq] at ha2
        obtain ⟨rfl, rfl⟩ := ha2
        rcases List.mem_append.1 hb with hb1 | hb2
        · exact absurd hfresh (h.created _ b hb1).1
        · simp only [List.mem_singleton, Prod.mk.injEq] at hb2
          exact hb2.2.symm

theorem inv_revokeRecord (s : Ledger) (cr : List (String × String)) (ctx : Ctx) (r R : String)
    (h : Inv s cr) : Inv (step s (.revokeRecord ctx r R)) cr := by
  rcases step_revokeRecord_cases s ctx r R with ⟨_, hstep⟩ |
    ⟨doc, record, hr, hl, hu, hnr, _, hstep⟩
  · rw [hstep]; exact h
  · rw [hstep]
    obtain ⟨e0, hm0, hc0, hk0, hv0⟩ := mem_of_lookup s _ _ doc hl
    obtain ⟨rec0, hval0, hsound0⟩ := h.shared e0 hm0 hc0
    have hrec : rec0 = record := by
      have := unmarshal_marshalCSFRecord rec0 hsound0.2.1
      rw [← hval0, hv0, hu] at this
      exact (Except.ok.inj this).symm
    subst hrec
    rw [hk0] at hsound0
    obtain ⟨s1, s2, s3, s4, s5, s6, s7, s8, _⟩ := hsound0
    constructor
    · intro e he hcoll
      rcases mem_put _ _ _ he with rfl | he1
      · exact ⟨_, rfl, s1, s2, s3, s4, s5, s6, s7, s8, fun hf => Bool.noConfusion hf⟩
      · exact h.shared e he1 hcoll
    · intro e he hcoll
      rcases mem_put _ _ _ he with rfl | he1
      · exact absurd rfl hcoll
      · exact h.priv e he1 hcoll
    · intro r1 o hmem
      obtain ⟨h1, h2⟩ := h.created r1 o hmem
      exact ⟨lookup_put_ne_none _ _ _ _ h1, lookup_put_ne_none _ _ _ _ h2⟩
    · exact h.unique

theorem inv_stepCreators (st : Ledger × List (String × String)) (call : Call)
    (h : Inv st.1 st.2) : Inv (stepCreators st call).1 (stepCreators st call).2 := by
  cases call with
  | addRecord ctx => exact inv_addRecord st.1 st.2 ctx h
  | getRecord ctx r =>
    show Inv (step st.1 (.getRecord ctx r)) st.2
    rw [step_getRecord]; exact h
  | getRecords ctx x a b l =>
    show Inv (step st.1 (.getRecords ctx x a b l)) st.2
    rw [step_getRecords]; exact h
  | revokeRecord ctx r R => exact inv_revokeRecord st.1 st.2 ctx r R h

theorem inv_foldl (calls : List Call) :
    ∀ st : Ledger × List (String × String), Inv st.1 st.2 →
      Inv (calls.foldl stepCreators st).1 (calls.foldl stepCreators st).2 := by
  induction calls with
  | nil => intro st h; exact h
  | cons c cs ih =>
    intro st h
    exact ih (stepCreators st c) (inv_stepCreators st c h)

theorem foldl_stepCreators_fst (calls : List Call) :
    ∀ st : Ledger × List (String × String),
      (calls.foldl stepCreators st).1 = run st.1 calls := by
  induction calls with
  | nil => intro st; rfl
  | cons c cs ih =>
    intro st
    rw [List.foldl_cons, ih, run_cons]
    rfl

theorem runCreators_fst (calls : List Call) : (runCreators calls).1 = run [] calls :=
  foldl_stepCreators_fst calls ([], [])

theorem inv_run (calls : List Call) : Inv (run [] calls) (creators calls) := by
  have := inv_foldl calls ([], []) inv_empty
  rw [← runCreators_fst]
  exact this

/-! ## The keys of the ledger -/

theorem mem_keys_iff_lookup (s : Ledger) (c k : String) :
    (c, k) ∈ s.keys ↔ s.lookup c k ≠ none := by
  induction s with
  | nil => simp [Ledger.keys, Ledger.lookup]
  | cons e rest ih =>
    unfold Ledger.lookup
    by_cases he : e.collection = c ∧ e.key = k
    · rw [if_pos he]
      simp [Ledger.keys, he.1, he.2]
    · rw [if_neg he, ← ih]
      have hne : (c, k) ≠ (e.collection, e.key) := by
        intro h
        apply he
        simp only [Prod.mk.injEq] at h
        exact ⟨h.1.symm, h.2.symm⟩
      simp only [Ledger.keys, List.map_cons, List.mem_cons, hne, false_or]

theorem keys_put_of_mem (s : Ledger) (w : Entry) (h : (w.collection, w.key) ∈ s.keys) :
    (s.put w).keys = s.keys := by
  induction s with
  | nil => simp [Ledger.keys] at h
  | cons e rest ih =>
    unfold Ledger.put
    by_cases he : e.collection = w.collection ∧ e.key = w.key
    · rw [if_pos he]
      simp [Ledger.keys, he.1, he.2]
    · rw [if_neg he]
      have hne : (w.collection, w.key) ≠ (e.collection, e.key) := by
        intro h1
        apply he
        simp only [Prod.mk.injEq] at h1
        exact ⟨h1.1.symm, h1.2.symm⟩
      have hrest : (w.collection, w.key) ∈ Ledger.keys rest := by
        simp only [Ledger.keys, List.map_cons, List.mem_cons, hne, false_or] at h
        exact h
      have := ih hrest
      simp only [Ledger.keys, List.map_cons] at this ⊢
      rw [this]

theorem keys_put_of_not_mem (s : Ledger) (w : Entry) (h : (w.collection, w.key) ∉ s.keys) :
    (s.put w).keys = s.keys ++ [(w.collection, w.key)] := by
  induction s with
  | nil => simp [Ledger.keys, Ledger.put]
  | cons e rest ih =>
    unfold Ledger.put
    have hne : ¬ (e.collection = w.collection ∧ e.key = w.key) := by
      intro he
      apply h
      simp [Ledger.keys, he.1, he.2]
    rw [if_neg hne]
    have hrest : (w.collection, w.key) ∉ Ledger.keys rest := by
      intro h1
      apply h
      simp only [Ledger.keys, List.map_cons, List.mem_cons]
      exact Or.inr h1
    have := ih hrest
    simp only [Ledger.keys, List.map_cons, List.cons_append] at this ⊢
    rw [this]

theorem nodup_keys_put (s : Ledger) (w : Entry) (h : s.keys.Nodup) : (s.put w).keys.Nodup := by
  by_cases hm : (w.collection, w.key) ∈ s.keys
  · rw [keys_put_of_mem s w hm]; exact h
  · rw [keys_put_of_not_mem s w hm]
    rw [List.nodup_append]
    refine ⟨h, List.nodup_singleton _, ?_⟩
    intro x hx hx1
    rw [List.mem_singleton] at hx1
    exact hm (hx1 ▸ hx)

theorem nodup_keys_step (s : Ledger) (call : Call) (h : s.keys.Nodup) :
    (step s call).keys.Nodup := by
  cases call with
  | getRecord ctx x => rw [step_getRecord]; exact h
  | getRecords ctx x a b l => rw [step_getRecords]; exact h
  | addRecord ctx =>
    rcases step_addRecord_cases s ctx with ⟨_, hs⟩ | ⟨p, org, _, _, _, _, _, _, hs⟩
    · rw [hs]; exact h
    · rw [hs]; exact nodup_keys_put _ _ (nodup_keys_put _ _ h)
  | revokeRecord ctx x R =>
    rcases step_revokeRecord_cases s ctx x R with ⟨_, hs⟩ | ⟨doc1, rec1, _, _, _, _, _, hs⟩
    · rw [hs]; exact h
    · rw [hs]; exact nodup_keys_put _ _ h

theorem nodup_keys_run (calls : List Call) : ∀ s : Ledger, s.keys.Nodup →
    (run s calls).keys.Nodup := by
  induction calls with
  | nil => intro s h; exact h
  | cons c cs ih =>
    intro s h
    rw [run_cons]
    exact ih _ (nodup_keys_step s c h)

theorem lookup_of_mem_of_nodup (s : Ledger) (h : s.keys.Nodup) (e : Entry) (he : e ∈ s) :
    s.lookup e.collection e.key = some e.value := by
  induction s with
  | nil => simp at he
  | cons x rest ih =>
    simp only [Ledger.keys, List.map_cons, List.nodup_cons] at h
    unfold Ledger.lookup
    rcases List.mem_cons.1 he with rfl | hr
    · simp
    · have hne : ¬ (x.collection = e.collection ∧ x.key = e.key) := by
        intro hx
        apply h.1
        rw [List.mem_map]
        exact ⟨e, hr, by rw [hx.1, hx.2]⟩
      rw [if_neg hne]
      exact ih h.2 hr

/-! ## The peer organization in the loop of `GetRecords` -/

theorem item_ignores_peer (ctx : Ctx) (q : Except String String) (s : Ledger)
    (x : String × JSON) :
    GetRecords.item { ctx with peerMSPID := q } s x = GetRecords.item ctx s x := rfl

theorem loop_ignores_peer (ctx : Ctx) (q : Except String String) (s : Ledger) (L : Nat) :
    ∀ (qs : List (String × JSON)) (acc : List Record) (c : Nat),
      GetRecords.loop { ctx with peerMSPID := q } s L qs acc c =
        GetRecords.loop ctx s L qs acc c := by
  intro qs
  induction qs with
  | nil => intro acc c; rfl
  | cons x rest ih =>
    intro acc c
    unfold GetRecords.loop
    rw [item_ignores_peer]
    cases GetRecords.item ctx s x with
    | error e => rfl
    | ok r =>
      simp only []
      split
      · rfl
      · exact ih _ _

/-! ## The records of `GetRecords` and `GetRecord` -/

theorem loop_mem (ctx : Ctx) (s : Ledger) (L : Nat) :
    ∀ (qs : List (String × JSON)) (acc : List Record) (c : Nat) (rs : List Record),
      GetRecords.loop ctx s L qs acc c = .ok rs →
      ∀ m ∈ rs, m ∈ acc ∨ ∃ x ∈ qs, GetRecords.item ctx s x = .ok m := by
  intro qs
  induction qs with
  | nil =>
    intro acc c rs h m hm
    simp only [GetRecords.loop, Except.ok.injEq] at h
    subst h
    exact Or.inl hm
  | cons x rest ih =>
    intro acc c rs h m hm
    unfold GetRecords.loop at h
    cases hi : GetRecords.item ctx s x with
    | error e => simp [hi] at h
    | ok r =>
      simp only [hi] at h
      have hacc : ∀ m, m ∈ acc ++ [r] →
          m ∈ acc ∨ ∃ y ∈ x :: rest, GetRecords.item ctx s y = .ok m := by
        intro m1 hm1
        rcases List.mem_append.1 hm1 with h1 | h1
        · exact Or.inl h1
        · rw [List.mem_singleton] at h1
          exact Or.inr ⟨x, List.mem_cons_self _ _, h1 ▸ hi⟩
      split at h
      · simp only [Except.ok.injEq] at h
        subst h
        exact hacc m hm
      · rcases ih _ _ rs h m hm with h1 | ⟨y, hy, hyi⟩
        · exact hacc m h1
        · exact Or.inr ⟨y, List.mem_cons_of_mem _ hy, hyi⟩

theorem GetRecords_mem (ctx : Ctx) (s : Ledger) (X : String) (f t L : Nat) (rs : List Record)
    (h : GetRecords ctx s X f t L = .ok rs) :
    ∀ m ∈ rs, ∃ e ∈ s, e.collection = recordCollection ∧
      GetRecords.item ctx s (e.key, e.value) = .ok m := by
  intro m hm
  have hX : X ≠ "" := by
    intro hx
    subst hx
    simp [GetRecords] at h
  rw [GetRecords_eq ctx s X f t L hX] at h
  rcases loop_mem ctx s L _ [] 0 rs h m hm with h1 | ⟨x, hx, hxi⟩
  · simp at h1
  · unfold queryResults at hx
    rw [List.mem_map] at hx
    obtain ⟨e, he, rfl⟩ := hx
    rw [List.mem_filter] at he
    have hcoll : e.collection = recordCollection := by
      have := he.2
      simp only [Bool.and_eq_true, decide_eq_true_eq] at this
      exact this.1
    exact ⟨e, he.1, hcoll, hxi⟩

theorem item_agrees (ctx : Ctx) (s : Ledger) (cr : List (String × String)) (hinv : Inv s cr)
    (hnd : s.keys.Nodup) (e : Entry) (he : e ∈ s) (hcoll : e.collection = recordCollection)
    (m : Record) (hi : GetRecords.item ctx s (e.key, e.value) = .ok m) :
    GetRecord ctx s m.RecordID = .ok (some m) := by
  obtain ⟨record, hval, hsound⟩ := hinv.shared e he hcoll
  have hlt := hsound.2.1
  have hid : record.RecordID = e.key := hsound.1
  have hk : e.key ≠ "" := by
    rw [← hid]
    exact hsound.2.2.2.1
  have hl : s.lookup recordCollection e.key = some (marshalCSFRecord record) := by
    have := lookup_of_mem_of_nodup s hnd e he
    rw [hcoll, hval] at this
    exact this
  unfold GetRecords.item at hi
  simp only [hval, unmarshal_marshalCSFRecord record hlt, hid] at hi
  have hget : ∀ fields, m = { Record.ofCSFRecord record with Fields := fields } →
      m.RecordID = e.key := by
    intro fields hm
    rw [hm]
    exact hid
  cases hc : getCollectionName ctx with
  | error err => simp [hc] at hi
  | ok c =>
    simp only [hc] at hi
    cases hg : GetPrivateData s c e.key with
    | error err => simp [hg] at hi
    | ok o =>
      cases o with
      | none =>
        simp only [hg, Except.ok.injEq] at hi
        rw [hget _ hi.symm]
        simp [GetRecord, length_eq_zero_iff, hk, GetPrivateData, recordCollection_ne_empty, hl,
          unmarshalPtr_marshalCSFRecord record hlt, hc]
        simp only [GetPrivateData] at hg
        split at hg
        · simp at hg
        · rename_i hne
          simp only [Except.ok.injEq] at hg
          simp [hne, hg, hi]
      | some bytes =>
        simp only [hg] at hi
        cases hu : unmarshalCSFRecordPrivateDetails CSFRecordPrivateDetails.zero bytes with
        | error err => simp [hu] at hi
        | ok d =>
          simp only [hu, Except.ok.injEq] at hi
          rw [hget _ hi.symm]
          simp [GetRecord, length_eq_zero_iff, hk, GetPrivateData, recordCollection_ne_empty, hl,
            unmarshalPtr_marshalCSFRecord record hlt, hc]
          simp only [GetPrivateData] at hg
          split at hg
          · simp at hg
          · rename_i hne
            simp only [Except.ok.injEq] at hg
            simp [hne, hg, hu, hi]

end CRO

/-! ## The properties -/

namespace CRO

/-- C1, amended: on a ledger with no shared record at key `r`, `AddRecord` of a
valid payload with `recordId = r` by a client whose identifier resolves and
whose organization is the organization of the peer succeeds, and `GetRecord r`
by a client of the same organization on the resulting ledger returns the
record with the shell fields and the `fields` of the payload and
`revoked = false`. -/
theorem addRecord_then_getRecord (ctx getCtx : Ctx) (s : Ledger) (p : recordTransientInput)
    (org id : String)
    (hp : decodedPayload ctx = .ok p) (hv : Valid p)
    (hfresh : s.lookup recordCollection p.RecordID = none)
    (hid : submittingClientIdentity ctx = .ok id)
    (hclient : ctx.clientMSPID = .ok org) (hpeer : ctx.peerMSPID = .ok org)
    (hget : getCtx.clientMSPID = .ok org) :
    (AddRecord ctx s).1 = .ok () ∧
    GetRecord getCtx (step s (.addRecord ctx)) p.RecordID =
      .ok (some
        { ObjectType := p.ObjectType
          RecordID := p.RecordID
          ISONumbers := p.ISONumbers
          CreatedAtUTC := p.CreatedAtUTC
          PremiseID := p.PremiseID
          DocumentType := p.DocumentType
          Fields := p.Fields
          Revoked := false
          RevocationReason := "" }) := by
  have hlt := decodedPayload_createdAtUTC_lt ctx p hp
  have hfv : firstViolated p = none := firstViolated_eq_none p hv
  have hr : p.RecordID ≠ "" := by
    have := hv .recordId (by decide)
    simpa [violates] using this
  have hverify : verifyClientOrgMatchesPeerOrg ctx = .ok () := by
    simp [verifyClientOrgMatchesPeerOrg, hclient, hpeer]
  have hadd := AddRecord_of_payload ctx s p hp
  simp only [hfv, hfresh, hid, hverify, hclient] at hadd
  refine ⟨by rw [hadd], ?_⟩
  simp only [step, Ledger.after, hadd, Ledger.commit, List.foldl]
  simp [GetRecord, length_eq_zero_iff, hr, GetPrivateData, recordCollection_ne_empty,
    lookup_put, orgCollection_ne_recordCollection, getCollectionName, hget,
    orgCollection_ne_empty, unmarshalPtr_marshalCSFRecord (shellOf p) hlt,
    unmarshal_marshalCSFRecordPrivateDetails (detailsOf p) (decodedPayload_fields_sorted ctx p hp)]
  simp [shellOf, detailsOf, Record.ofCSFRecord]

/-- C1, witness: the example of the specification on the empty ledger. -/
theorem addRecord_then_getRecord_witness :
    (AddRecord ctxOrg1 []).1 = .ok () ∧
    GetRecord ctxOrg1 (step [] (.addRecord ctxOrg1)) "R1" =
      .ok (some
        { ObjectType := "tag"
          RecordID := "R1"
          ISONumbers := some ["A123"]
          CreatedAtUTC := 1000
          PremiseID := "P1"
          DocumentType := "activation"
          Fields := some [("owner", "Jane")]
          Revoked := false
          RevocationReason := "" }) :=
  addRecord_then_getRecord ctxOrg1 ctxOrg1 [] payloadR1 "Org1MSP" "x509::CN=user1::CN=ca"
    (by rfl) (by decide) (by rfl) (by rfl) (by rfl) (by rfl) (by rfl)

/-- C1 as stated fails: a valid payload, a fresh key and a client of the
organization of the peer, yet `AddRecord` returns the error of
`submittingClientIdentity` because the identifier of the client is not
available. -/
theorem addRecord_fails_without_client_id :
    decodedPayload ctxNoID = .ok payloadR1 ∧ Valid payloadR1 ∧
    Ledger.lookup [] recordCollection payloadR1.RecordID = none ∧
    ctxNoID.clientMSPID = .ok "Org1MSP" ∧ ctxNoID.peerMSPID = .ok "Org1MSP" ∧
    (AddRecord ctxNoID []).1 = .error (.readClientID "identity unavailable") :=
  ⟨by rfl, by decide, by rfl, by rfl, by rfl, by rfl⟩

/-- C2: when a shared record already exists at key `r`, `AddRecord` of any valid
payload with `recordId = r`, by any caller, returns the duplicate-record error
with an empty write set and the ledger is unchanged; in particular this is so
on the ledger left by a successful `AddRecord` with `recordId = r`. -/
theorem addRecord_rejects_duplicate (ctx : Ctx) (p : recordTransientInput)
    (hp : decodedPayload ctx = .ok p) (hv : Valid p) :
    (∀ (s : Ledger) (doc : JSON), s.lookup recordCollection p.RecordID = some doc →
      AddRecord ctx s = (.error (.alreadyExists p.RecordID), []) ∧
      step s (.addRecord ctx) = s) ∧
    (∀ (s0 : Ledger) (ctx0 : Ctx) (p0 : recordTransientInput),
      decodedPayload ctx0 = .ok p0 → p0.RecordID = p.RecordID →
      (AddRecord ctx0 s0).1 = .ok () →
      AddRecord ctx (step s0 (.addRecord ctx0)) = (.error (.alreadyExists p.RecordID), []) ∧
      step (step s0 (.addRecord ctx0)) (.addRecord ctx) = step s0 (.addRecord ctx0)) := by
  have hfv : firstViolated p = none := firstViolated_eq_none p hv
  have key : ∀ (s : Ledger) (doc : JSON), s.lookup recordCollection p.RecordID = some doc →
      AddRecord ctx s = (.error (.alreadyExists p.RecordID), []) ∧
      step s (.addRecord ctx) = s := by
    intro s doc hdoc
    have hadd := AddRecord_of_payload ctx s p hp
    simp only [hfv, hdoc] at hadd
    exact ⟨hadd, step_of_error_addRecord s ctx _ _ hadd⟩
  refine ⟨key, ?_⟩
  intro s0 ctx0 p0 hp0 hid hok
  rcases step_addRecord_cases s0 ctx0 with ⟨⟨e, he⟩, _⟩ | ⟨p1, org, hp1, _, _, _, _, _, h⟩
  · rw [hok] at he
    exact Except.noConfusion he
  · rw [hp0] at hp1
    have := Except.ok.inj hp1
    subst this
    apply key _ (marshalCSFRecord (shellOf p0))
    rw [h, lookup_put, lookup_put, ← hid]
    simp [orgCollection_ne_recordCollection]

/-- C2, witness: a second `AddRecord` of `R1`, by a client of another
organization, on the ledger that holds `R1`. -/
theorem addRecord_rejects_duplicate_witness :
    AddRecord ctxCross ledgerR1 = (.error (.alreadyExists "R1"), []) ∧
    step ledgerR1 (.addRecord ctxCross) = ledgerR1 :=
  (addRecord_rejects_duplicate ctxCross payloadR1 (by rfl) (by decide)).1 ledgerR1
    (marshalCSFRecord (shellOf payloadR1)) (by rfl)

/-- C7: for a decoded payload, `AddRecord` returns the empty-field error of a
field exactly when that field is the first requirement the payload violates,
in the order `objectType`, `recordId`, `isoNumbers`, `createdAtUTC`,
`premiseId`, `documentType`; so it returns an empty-field error exactly when
the payload violates at least one requirement. -/
theorem addRecord_reports_first_violation (ctx : Ctx) (s : Ledger) (p : recordTransientInput)
    (hp : decodedPayload ctx = .ok p) :
    (∀ f, (AddRecord ctx s).1 = .error (.mustBeNonEmpty f) ↔ firstViolated p = some f) ∧
    ((∃ f, (AddRecord ctx s).1 = .error (.mustBeNonEmpty f)) ↔
      ∃ f ∈ requirements, violates p f = true) := by
  have hadd := AddRecord_of_payload ctx s p hp
  have h1 : ∀ f, (AddRecord ctx s).1 = .error (.mustBeNonEmpty f) ↔ firstViolated p = some f := by
    intro f
    rw [hadd]
    cases hfv : firstViolated p with
    | some g => simp
    | none =>
      simp only []
      cases hL : Ledger.lookup s recordCollection p.RecordID with
      | some d => simp
      | none =>
        simp only []
        cases hI : submittingClientIdentity ctx with
        | error e =>
          have := submittingClientIdentity_ne_mustBeNonEmpty ctx f
          rw [hI] at this
          simpa using this
        | ok i =>
          simp only []
          cases hV : verifyClientOrgMatchesPeerOrg ctx with
          | error e => simp
          | ok u =>
            cases hC : ctx.clientMSPID <;> simp
  refine ⟨h1, ?_⟩
  constructor
  · rintro ⟨f, hf⟩
    have := (h1 f).1 hf
    unfold firstViolated at this
    exact ⟨f, List.mem_of_find?_eq_some this, List.find?_some this⟩
  · rintro ⟨f, hf, hviol⟩
    cases hfv : firstViolated p with
    | some g => exact ⟨g, (h1 g).2 hfv⟩
    | none =>
      have := valid_of_firstViolated_eq_none p hfv f hf
      rw [this] at hviol
      exact Bool.noConfusion hviol

/-- C7, witness: a payload with an empty `recordId` and an empty `isoNumbers`
is reported for `recordId`. -/
theorem addRecord_reports_first_violation_witness :
    (AddRecord (ctxOf "Org1MSP" "Org1MSP" payloadBadJSON) []).1 =
      .error (.mustBeNonEmpty .recordId) :=
  ((addRecord_reports_first_violation (ctxOf "Org1MSP" "Org1MSP" payloadBadJSON) [] payloadBad
    (by rfl)).1 .recordId).2 (by decide)

/-- C8: when the decoded payload violates a requirement, `AddRecord` returns an
empty-field error with an empty write set, and the ledger (the shared
collection and every private collection) is the same after the call. -/
theorem addRecord_invalid_writes_nothing (ctx : Ctx) (s : Ledger) (p : recordTransientInput)
    (hp : decodedPayload ctx = .ok p) (hbad : ∃ f ∈ requirements, violates p f = true) :
    (∃ f, AddRecord ctx s = (.error (.mustBeNonEmpty f), [])) ∧
    step s (.addRecord ctx) = s := by
  have hadd := AddRecord_of_payload ctx s p hp
  cases hfv : firstViolated p with
  | some g =>
    simp only [hfv] at hadd
    exact ⟨⟨g, hadd⟩, step_of_error_addRecord s ctx _ _ hadd⟩
  | none =>
    obtain ⟨f, hf, hviol⟩ := hbad
    have := valid_of_firstViolated_eq_none p hfv f hf
    rw [this] at hviol
    exact Bool.noConfusion hviol

/-- C8, witness: a payload with `isoNumbers = []` on the ledger that holds `R1`. -/
theorem addRecord_invalid_writes_nothing_witness :
    (∃ f, AddRecord (ctxOf "Org1MSP" "Org1MSP" payloadBadJSON) ledgerR1 =
      (.error (.mustBeNonEmpty f), [])) ∧
    step ledgerR1 (.addRecord (ctxOf "Org1MSP" "Org1MSP" payloadBadJSON)) = ledgerR1 :=
  addRecord_invalid_writes_nothing (ctxOf "Org1MSP" "Org1MSP" payloadBadJSON) ledgerR1 payloadBad
    (by rfl) ⟨.isoNumbers, by decide, by decide⟩

/-- C4: on a ledger that holds at key `r` a shared record with
`revoked = false`, `RevokeRecord r R` succeeds for every reason `R` and the
stored record then has `revoked = true` and `revocationReason = R`, its other
fields as before; a second `RevokeRecord r R2` returns the already-revoked
error with an empty write set and leaves the ledger as it is. -/
theorem revokeRecord_single_shot (ctx ctx2 : Ctx) (s : Ledger) (r R R2 : String)
    (record : CSFRecord) (hwf : s.WellFormed)
    (hrec : sharedRecord s r = some record) (hnr : record.Revoked = false) :
    (RevokeRecord ctx s r R).1 = .ok () ∧
    sharedRecord (step s (.revokeRecord ctx r R)) r =
      some { record with Revoked := true, RevocationReason := R } ∧
    RevokeRecord ctx2 (step s (.revokeRecord ctx r R)) r R2 = (.error .alreadyRevoked, []) ∧
    step (step s (.revokeRecord ctx r R)) (.revokeRecord ctx2 r R2) =
      step s (.revokeRecord ctx r R) := by
  obtain ⟨doc, hdoc, hdec⟩ := (sharedRecord_eq_some_iff s r record).1 hrec
  have hr : r ≠ "" := key_ne_empty_of_lookup s hwf _ r doc hdoc
  have hlt := unmarshalCSFRecord_lt doc record hdec
  have h1 := RevokeRecord_eq ctx s r R
  simp only [hr, if_false, hdoc, hdec, hnr] at h1
  have hok : (RevokeRecord ctx s r R).1 = .ok () := by rw [h1]; rfl
  have hstep : step s (.revokeRecord ctx r R) =
      s.put ⟨recordCollection, r,
        marshalCSFRecord { record with Revoked := true, RevocationReason := R }⟩ := by
    show s.after (RevokeRecord ctx s r R) = _
    rw [after_of_ok s _ () hok, h1]
    rfl
  have hl : (step s (.revokeRecord ctx r R)).lookup recordCollection r =
      some (marshalCSFRecord { record with Revoked := true, RevocationReason := R }) := by
    rw [hstep, lookup_put]
    simp
  have hu := unmarshal_marshalCSFRecord
    { record with Revoked := true, RevocationReason := R } hlt
  have h2 := RevokeRecord_eq ctx2 (step s (.revokeRecord ctx r R)) r R2
  simp only [hr, if_false, hl, hu, if_true] at h2
  refine ⟨hok, ?_, h2, step_of_error_revokeRecord _ ctx2 r R2 _ _ h2⟩
  exact (sharedRecord_eq_some_iff _ r _).2 ⟨_, hl, hu⟩

/-- C4, witness: the example of the specification, `R1` revoked with the
reason `lost tag` and then `again`. -/
theorem revokeRecord_single_shot_witness :
    (RevokeRecord ctxOrg1 ledgerR1 "R1" "lost tag").1 = .ok () ∧
    sharedRecord (step ledgerR1 (.revokeRecord ctxOrg1 "R1" "lost tag")) "R1" =
      some { shellOf payloadR1 with Revoked := true, RevocationReason := "lost tag" } ∧
    RevokeRecord ctxCross (step ledgerR1 (.revokeRecord ctxOrg1 "R1" "lost tag")) "R1" "again" =
      (.error .alreadyRevoked, []) ∧
    step (step ledgerR1 (.revokeRecord ctxOrg1 "R1" "lost tag"))
        (.revokeRecord ctxCross "R1" "again") =
      step ledgerR1 (.revokeRecord ctxOrg1 "R1" "lost tag") :=
  revokeRecord_single_shot ctxOrg1 ctxCross ledgerR1 "R1" "lost tag" "again" (shellOf payloadR1)
    (by decide) (by rfl) (by rfl)

/-- C9, amended: for a valid payload whose `recordId` is not in the shared
collection, sent by a client whose identifier resolves: when the organization
of the client differs from the organization of the peer, or one of the two
cannot be read, `AddRecord` returns the error of the same-organization check
with an empty write set and the ledger is unchanged; when the two are equal
the check succeeds. -/
theorem addRecord_access_guard (ctx : Ctx) (s : Ledger) (p : recordTransientInput) (id : String)
    (hp : decodedPayload ctx = .ok p) (hv : Valid p)
    (hfresh : s.lookup recordCollection p.RecordID = none)
    (hid : submittingClientIdentity ctx = .ok id) :
    (∀ c q, ctx.clientMSPID = .ok c → ctx.peerMSPID = .ok q → c ≠ q →
      AddRecord ctx s = (.error (.createCannotBePerformed (.notAuthorized c q)), []) ∧
      step s (.addRecord ctx) = s) ∧
    (∀ e, ctx.clientMSPID = .error e →
      AddRecord ctx s = (.error (.createCannotBePerformed (.clientMSPID e)), []) ∧
      step s (.addRecord ctx) = s) ∧
    (∀ c e, ctx.clientMSPID = .ok c → ctx.peerMSPID = .error e →
      AddRecord ctx s = (.error (.createCannotBePerformed (.peerMSPID e)), []) ∧
      step s (.addRecord ctx) = s) ∧
    (∀ org, ctx.clientMSPID = .ok org → ctx.peerMSPID = .ok org →
      verifyClientOrgMatchesPeerOrg ctx = .ok ()) := by
  have hfv : firstViolated p = none := firstViolated_eq_none p hv
  have hadd := AddRecord_of_payload ctx s p hp
  simp only [hfv, hfresh, hid] at hadd
  refine ⟨?_, ?_, ?_, ?_⟩
  · intro c q hc hq hne
    have hV : verifyClientOrgMatchesPeerOrg ctx = .error (.notAuthorized c q) := by
      simp [verifyClientOrgMatchesPeerOrg, hc, hq, hne]
    simp only [hV] at hadd
    exact ⟨hadd, step_of_error_addRecord s ctx _ _ hadd⟩
  · intro e hc
    have hV : verifyClientOrgMatchesPeerOrg ctx = .error (.clientMSPID e) := by
      simp [verifyClientOrgMatchesPeerOrg, hc]
    simp only [hV] at hadd
    exact ⟨hadd, step_of_error_addRecord s ctx _ _ hadd⟩
  · intro c e hc hq
    have hV : verifyClientOrgMatchesPeerOrg ctx = .error (.peerMSPID e) := by
      simp [verifyClientOrgMatchesPeerOrg, hc, hq]
    simp only [hV] at hadd
    exact ⟨hadd, step_of_error_addRecord s ctx _ _ hadd⟩
  · intro org hc hq
    exact (verify_ok_iff ctx).2 ⟨org, hc, hq⟩

/-- C9, witness: a client of `Org1MSP` on a peer of `Org2MSP`. -/
theorem addRecord_access_guard_witness :
    AddRecord ctxCross [] =
      (.error (.createCannotBePerformed (.notAuthorized "Org1MSP" "Org2MSP")), []) ∧
    step [] (.addRecord ctxCross) = [] :=
  (addRecord_access_guard ctxCross [] payloadR1 "x509::CN=user1::CN=ca"
    (by rfl) (by decide) (by rfl) (by rfl)).1 "Org1MSP" "Org2MSP" (by rfl) (by rfl) (by decide)

/-- C9 as stated fails: a valid payload, a fresh key, a client of `Org1MSP` on
a peer of `Org2MSP`, and `AddRecord` returns the error of
`submittingClientIdentity`, not the error of the same-organization check. -/
theorem addRecord_identity_error_before_guard :
    decodedPayload ctxCrossNoID = .ok payloadR1 ∧ Valid payloadR1 ∧
    Ledger.lookup [] recordCollection payloadR1.RecordID = none ∧
    ctxCrossNoID.clientMSPID = .ok "Org1MSP" ∧ ctxCrossNoID.peerMSPID = .ok "Org2MSP" ∧
    "Org1MSP" ≠ "Org2MSP" ∧
    (AddRecord ctxCrossNoID []).1 = .error (.readClientID "identity unavailable") ∧
    (∀ cause, (AddRecord ctxCrossNoID []).1 ≠ .error (.createCannotBePerformed cause)) :=
  ⟨by rfl, by decide, by rfl, by rfl, by rfl, by decide, by rfl,
    fun cause h => Err.noConfusion (Except.error.inj ((show (AddRecord ctxCrossNoID []).1 =
      .error (.readClientID "identity unavailable") from rfl).symm.trans h))⟩

/-- C10: once the shared record at key `r` has `revoked = true`, it is the same
record, with `revoked = true` and the same `revocationReason`, after any one
invocation of `AddRecord`, `GetRecord`, `GetRecords` or `RevokeRecord` and
after any sequence of them. -/
theorem revoked_stays_revoked (s : Ledger) (r : String) (record : CSFRecord)
    (hrec : sharedRecord s r = some record) (hrev : record.Revoked = true) :
    (∀ call, sharedRecord (step s call) r = some record) ∧
    (∀ calls, sharedRecord (run s calls) r = some record) := by
  have one : ∀ (t : Ledger), sharedRecord t r = some record →
      ∀ call, sharedRecord (step t call) r = some record := by
    intro t ht call
    obtain ⟨doc, hdoc, hdec⟩ := (sharedRecord_eq_some_iff t r record).1 ht
    exact (sharedRecord_eq_some_iff _ r record).2
      ⟨doc, lookup_step_of_revoked t r doc record hdoc hdec hrev call, hdec⟩
  refine ⟨one s hrec, ?_⟩
  intro calls
  induction calls generalizing s with
  | nil => exact hrec
  | cons c cs ih =>
    rw [run_cons]
    exact ih (step s c) (one s hrec c)

/-- C10, witness: on the ledger where `R1` is revoked, a further `RevokeRecord`
followed by an `AddRecord` of `R1` leave the record as it is. -/
theorem revoked_stays_revoked_witness :
    sharedRecord (run ledgerR1Revoked [.revokeRecord ctxCross "R1" "again", .addRecord ctxOrg1])
      "R1" =
      some { shellOf payloadR1 with Revoked := true, RevocationReason := "lost tag" } :=
  (revoked_stays_revoked ledgerR1Revoked "R1"
    { shellOf payloadR1 with Revoked := true, RevocationReason := "lost tag" }
    (by rfl) (by rfl)).2 [.revokeRecord ctxCross "R1" "again", .addRecord ctxOrg1]

/-- C5: on a ledger whose shared collection holds encoded shared records, for a
non-empty `X` and limit 0, whatever `GetRecords X DateFrom DateTo 0` returns
is, in ledger order, exactly the shared records whose `isoNumbers` contains `X`
and, when both bounds are non-zero, whose `createdAtUTC` lies in
`[DateFrom, DateTo]` (no date restriction when a bound is zero); and it does
return for a caller whose organization resolves and whose private entries
decode. -/
theorem getRecords_selects (ctx : Ctx) (s : Ledger) (X : String) (DateFrom DateTo : Nat)
    (hX : X ≠ "") (hs : SharedWellFormed s) :
    (∀ rs, GetRecords ctx s X DateFrom DateTo 0 = .ok rs →
      rs.map Record.shell = (sharedRecords s).filter (selected X DateFrom DateTo)) ∧
    (∀ org, ctx.clientMSPID = .ok org → PrivateDecodable s (org ++ "PrivateCollection") →
      ∃ rs, GetRecords ctx s X DateFrom DateTo 0 = .ok rs) := by
  have heq : GetRecords ctx s X DateFrom DateTo 0 =
      collect ctx s (queryResults s X DateFrom DateTo) := by
    rw [GetRecords_eq ctx s X DateFrom DateTo 0 hX, loop_unbounded]
    cases collect ctx s (queryResults s X DateFrom DateTo) <;> simp
  constructor
  · intro rs h
    rw [heq] at h
    exact collect_shells ctx s X DateFrom DateTo s hs rs h
  · intro org hc hpriv
    rw [heq]
    exact collect_ok ctx s org hc hpriv _ (queryResults_marshalled s X DateFrom DateTo hs)

/-- C5, witness: of the three records of `ledgerThree`, `R1` and `R2` hold
`A123` and only `R2` was created between 1500 and 2500. -/
theorem getRecords_selects_witness :
    [recordR2].map Record.shell =
      (sharedRecords ledgerThree).filter (selected "A123" 1500 2500) :=
  (getRecords_selects ctxOrg1 ledgerThree "A123" 1500 2500 (by decide)
    (by
      intro e he hc
      simp only [ledgerThree, List.mem_cons, List.mem_singleton, List.not_mem_nil,
        or_false] at he
      rcases he with rfl | rfl | rfl | rfl | rfl | rfl
      · exact ⟨shellOf payloadR1, by decide, rfl⟩
      · exact absurd hc (by decide)
      · exact ⟨shellR3, by decide, rfl⟩
      · exact absurd hc (by decide)
      · exact ⟨shellR2, by decide, rfl⟩
      · exact absurd hc (by decide))).1
    [recordR2] (by rfl)

/-- C6: `GetRecords` with limit 0 returns the records of all query results, in
query order; with a limit `L > 0` it returns the records of the first
`min L n` of the `n` query results; so when limit 0 yields the records `all`,
limit `L > 0` yields exactly the first `min L n` of them. -/
theorem getRecords_truncates (ctx : Ctx) (s : Ledger) (X : String) (DateFrom DateTo L : Nat)
    (hX : X ≠ "") (hL : L < uintSize) :
    GetRecords ctx s X DateFrom DateTo 0 = collect ctx s (queryResults s X DateFrom DateTo) ∧
    (0 < L → GetRecords ctx s X DateFrom DateTo L =
      collect ctx s ((queryResults s X DateFrom DateTo).take
        (min L (queryResults s X DateFrom DateTo).length))) ∧
    (∀ all, GetRecords ctx s X DateFrom DateTo 0 = .ok all →
      all.length = (queryResults s X DateFrom DateTo).length ∧
      (0 < L → GetRecords ctx s X DateFrom DateTo L = .ok (all.take (min L all.length)))) := by
  have h0 : GetRecords ctx s X DateFrom DateTo 0 =
      collect ctx s (queryResults s X DateFrom DateTo) := by
    rw [GetRecords_eq ctx s X DateFrom DateTo 0 hX, loop_unbounded]
    cases collect ctx s (queryResults s X DateFrom DateTo) <;> simp
  have hmin : ∀ (α : Type) (l : List α), l.take (min L l.length) = l.take L := by
    intro α l
    rw [← List.take_take, List.take_length]
  have hpos : 0 < L → GetRecords ctx s X DateFrom DateTo L =
      collect ctx s ((queryResults s X DateFrom DateTo).take L) := by
    intro hl
    rw [GetRecords_eq ctx s X DateFrom DateTo L hX, loop_bounded ctx s L hL _ [] 0 hl]
    simp only [Nat.sub_zero, List.nil_append]
    cases collect ctx s ((queryResults s X DateFrom DateTo).take L) <;> rfl
  refine ⟨h0, ?_, ?_⟩
  · intro hl
    rw [hmin, hpos hl]
  · intro all hall
    rw [h0] at hall
    refine ⟨collect_length ctx s _ all hall, ?_⟩
    intro hl
    rw [hmin, hpos hl]
    exact collect_take ctx s _ all L hall

/-- C6, witness: limit 1 over the two records that hold `A123` returns exactly
the first one. -/
theorem getRecords_truncates_witness :
    GetRecords ctxOrg1 ledgerThree "A123" 0 0 1 =
      .ok [recordR1] :=
  ((getRecords_truncates ctxOrg1 ledgerThree "A123" 0 0 1 (by decide) (by decide)).2.2
    [recordR1, recordR2]
    (by rfl)).2 (by decide)

/-- C3: on every ledger reached from the empty ledger by invocations of the
four transactions, when record `r` was created by a client of organization
`A`, `GetRecord r` by a client of an organization `B` other than `A` succeeds
and returns the stored shared record with `fields` the empty map. -/
theorem getRecord_by_other_org (calls : List Call) (r A B : String) (ctx : Ctx)
    (hcreated : (r, A) ∈ creators calls) (hB : ctx.clientMSPID = .ok B) (hne : B ≠ A) :
    ∃ record, sharedRecord (run [] calls) r = some record ∧
      GetRecord ctx (run [] calls) r =
        .ok (some
          { ObjectType := record.ObjectType
            RecordID := record.RecordID
            ISONumbers := record.ISONumbers
            CreatedAtUTC := record.CreatedAtUTC
            PremiseID := record.PremiseID
            DocumentType := record.DocumentType
            Fields := some []
            Revoked := record.Revoked
            RevocationReason := record.RevocationReason }) := by
  have hinv := inv_run calls
  have hsome := (hinv.created r A hcreated).1
  cases hl : Ledger.lookup (run [] calls) recordCollection r with
  | none => exact absurd hl hsome
  | some doc =>
    obtain ⟨e, hm, hc, hk, hval⟩ := mem_of_lookup _ _ _ doc hl
    obtain ⟨record, hdoc, hsound⟩ := hinv.shared e hm hc
    rw [hval] at hdoc
    have hlt := hsound.2.1
    have hr : r ≠ "" := by
      rw [← hk, ← hsound.1]
      exact hsound.2.2.2.1
    have hnone : Ledger.lookup (run [] calls) (B ++ "PrivateCollection") r = none := by
      cases hp : Ledger.lookup (run [] calls) (B ++ "PrivateCollection") r with
      | none => rfl
      | some bytes =>
        obtain ⟨e1, hm1, hc1, hk1, _⟩ := mem_of_lookup _ _ _ bytes hp
        have hnrc : e1.collection ≠ recordCollection := by
          rw [hc1]
          exact orgCollection_ne_recordCollection B
        obtain ⟨org, d, h1, h2, _, _⟩ := hinv.priv e1 hm1 hnrc
        rw [hc1] at h1
        have hBorg := orgCollection_injective B org h1
        rw [hk1, ← hBorg] at h2
        exact absurd (hinv.unique r B A h2 hcreated) hne
    refine ⟨record, ?_, ?_⟩
    · exact (sharedRecord_eq_some_iff _ r record).2
        ⟨doc, hl, by rw [hdoc]; exact unmarshal_marshalCSFRecord record hlt⟩
    · simp [GetRecord, length_eq_zero_iff, hr, GetPrivateData, recordCollection_ne_empty, hl,
        hdoc, unmarshalPtr_marshalCSFRecord record hlt, getCollectionName, hB,
        orgCollection_ne_empty, hnone, Record.ofCSFRecord]

/-- C3, witness: `R1` created by a client of `Org1MSP`, read by a client of
`Org2MSP`. -/
theorem getRecord_by_other_org_witness :
    sharedRecord (run [] [.addRecord ctxOrg1]) "R1" =
      some
        { ObjectType := "tag"
          RecordID := "R1"
          ISONumbers := some ["A123"]
          CreatedAtUTC := 1000
          PremiseID := "P1"
          DocumentType := "activation"
          Revoked := false
          RevocationReason := "" } ∧
    GetRecord (ctxOf "Org2MSP" "Org2MSP" payloadR1JSON) (run [] [.addRecord ctxOrg1]) "R1" =
      .ok (some
        { ObjectType := "tag"
          RecordID := "R1"
          ISONumbers := some ["A123"]
          CreatedAtUTC := 1000
          PremiseID := "P1"
          DocumentType := "activation"
          Fields := some []
          Revoked := false
          RevocationReason := "" }) := by
  obtain ⟨record, h1, h2⟩ := getRecord_by_other_org [.addRecord ctxOrg1] "R1" "Org1MSP" "Org2MSP"
    (ctxOf "Org2MSP" "Org2MSP" payloadR1JSON) (by decide) (by rfl) (by decide)
  have hrec : record = shellOf payloadR1 :=
    (Option.some.inj ((show sharedRecord (run [] [.addRecord ctxOrg1]) "R1" =
      some (shellOf payloadR1) from rfl).symm.trans h1)).symm
  subst hrec
  exact ⟨h1, h2⟩

/-- C11: a successful `RevokeRecord r R` sets `revoked` and `revocationReason`
of the shared record at key `r` and leaves its other fields, the value at
every other key of every collection, and the keys of the ledger as they
were. -/
theorem revokeRecord_frame (ctx : Ctx) (s : Ledger) (r R : String)
    (hok : (RevokeRecord ctx s r R).1 = .ok ()) :
    ∃ record, sharedRecord s r = some record ∧ record.Revoked = false ∧
      sharedRecord (step s (.revokeRecord ctx r R)) r =
        some { record with Revoked := true, RevocationReason := R } ∧
      (∀ c k, ¬ (c = recordCollection ∧ k = r) →
        (step s (.revokeRecord ctx r R)).lookup c k = s.lookup c k) ∧
      (step s (.revokeRecord ctx r R)).keys = s.keys := by
  rcases step_revokeRecord_cases s ctx r R with ⟨⟨e, he⟩, _⟩ |
    ⟨doc, record, hr, hl, hu, hnr, _, hstep⟩
  · rw [hok] at he
    exact Except.noConfusion he
  · have hlt := unmarshalCSFRecord_lt doc record hu
    refine ⟨record, (sharedRecord_eq_some_iff s r record).2 ⟨doc, hl, hu⟩, hnr, ?_, ?_, ?_⟩
    · refine (sharedRecord_eq_some_iff _ r _).2 ⟨_, ?_, unmarshal_marshalCSFRecord _ hlt⟩
      rw [hstep, lookup_put]
      simp
    · intro c k hck
      rw [hstep, lookup_put]
      have : ¬ (recordCollection = c ∧ r = k) := fun h => hck ⟨h.1.symm, h.2.symm⟩
      simp [this]
    · rw [hstep]
      apply keys_put_of_mem
      rw [mem_keys_iff_lookup]
      simp [hl]

/-- C11, witness: `R1` revoked on the ledger of three records. -/
theorem revokeRecord_frame_witness :
    ∃ record, sharedRecord ledgerThree "R1" = some record ∧ record.Revoked = false ∧
      sharedRecord (step ledgerThree (.revokeRecord ctxCross "R1" "lost tag")) "R1" =
        some { record with Revoked := true, RevocationReason := "lost tag" } ∧
      (∀ c k, ¬ (c = recordCollection ∧ k = "R1") →
        (step ledgerThree (.revokeRecord ctxCross "R1" "lost tag")).lookup c k =
          ledgerThree.lookup c k) ∧
      (step ledgerThree (.revokeRecord ctxCross "R1" "lost tag")).keys = ledgerThree.keys :=
  revokeRecord_frame ctxCross ledgerThree "R1" "lost tag" (by rfl)

/-- C12: on every ledger reached from the empty ledger, a collection other
than the shared one that holds an entry at key `k` is the private collection
of an organization that created `k`; the private collection of the creator of
`k` holds an entry at `k`; and two organizations whose private collections
both hold an entry at `k` are the same. -/
theorem private_details_only_with_creator (calls : List Call) (k : String) :
    (∀ c, c ≠ recordCollection → (run [] calls).lookup c k ≠ none →
      ∃ A, c = A ++ "PrivateCollection" ∧ (k, A) ∈ creators calls) ∧
    (∀ A, (k, A) ∈ creators calls →
      (run [] calls).lookup (A ++ "PrivateCollection") k ≠ none ∧
      ∀ B, (run [] calls).lookup (B ++ "PrivateCollection") k ≠ none → B = A) ∧
    (∀ B C, (run [] calls).lookup (B ++ "PrivateCollection") k ≠ none →
      (run [] calls).lookup (C ++ "PrivateCollection") k ≠ none → B = C) := by
  have hinv := inv_run calls
  have owner : ∀ B, (run [] calls).lookup (B ++ "PrivateCollection") k ≠ none →
      (k, B) ∈ creators calls := by
    intro B hB
    cases hl : Ledger.lookup (run [] calls) (B ++ "PrivateCollection") k with
    | none => exact absurd hl hB
    | some bytes =>
      obtain ⟨e, hm, hc, hk, _⟩ := mem_of_lookup _ _ _ bytes hl
      have hnrc : e.collection ≠ recordCollection := by
        rw [hc]; exact orgCollection_ne_recordCollection B
      obtain ⟨org, d, h1, h2, _, _⟩ := hinv.priv e hm hnrc
      rw [hc] at h1
      rw [hk, ← orgCollection_injective B org h1] at h2
      exact h2
  refine ⟨?_, ?_, ?_⟩
  · intro c hc hl
    cases hl1 : Ledger.lookup (run [] calls) c k with
    | none => exact absurd hl1 hl
    | some bytes =>
      obtain ⟨e, hm, hce, hk, _⟩ := mem_of_lookup _ _ _ bytes hl1
      obtain ⟨org, d, h1, h2, _, _⟩ := hinv.priv e hm (by rw [hce]; exact hc)
      exact ⟨org, by rw [← hce, h1], by rw [← hk]; exact h2⟩
  · intro A hA
    exact ⟨(hinv.created k A hA).2, fun B hB => hinv.unique k B A (owner B hB) hA⟩
  · intro B C hB hC
    exact hinv.unique k B C (owner B hB) (owner C hC)

/-- C12, witness: after `Org1MSP` created `R1`, its private collection holds
`R1` and the private collection of `Org2MSP` does not. -/
theorem private_details_only_with_creator_witness :
    (run [] [.addRecord ctxOrg1]).lookup ("Org1MSP" ++ "PrivateCollection") "R1" ≠ none ∧
    ∀ B, (run [] [.addRecord ctxOrg1]).lookup (B ++ "PrivateCollection") "R1" ≠ none →
      B = "Org1MSP" :=
  (private_details_only_with_creator [.addRecord ctxOrg1] "R1").2.1 "Org1MSP" (by decide)

/-- C13: for a non-empty `recordId` with no bytes at that key of the shared
collection, `GetRecord` returns no record and no error, whatever the caller
and the private collections; with the empty `recordId` it returns the
empty-field error. -/
theorem getRecord_not_found (ctx : Ctx) (s : Ledger) (r : String) :
    (r ≠ "" → s.lookup recordCollection r = none → GetRecord ctx s r = .ok none) ∧
    GetRecord ctx s "" = .error (.mustBeNonEmpty .recordId) := by
  constructor
  · intro hr hnone
    simp [GetRecord, length_eq_zero_iff, hr, GetPrivateData, recordCollection_ne_empty, hnone]
  · simp [GetRecord]

/-- C13, witness: `R9` is not on the ledger that holds `R1`. -/
theorem getRecord_not_found_witness : GetRecord ctxCrossNoID ledgerR1 "R9" = .ok none :=
  (getRecord_not_found ctxCrossNoID ledgerR1 "R9").1 (by decide) (by rfl)

/-- C14: `GetRecord`, `GetRecords` and `RevokeRecord` return the same result,
and leave the same ledger, whatever the organization of the peer is or
whether it can be read; and `RevokeRecord` of a stored record that is not
revoked succeeds for every caller on every peer. -/
theorem peer_org_not_checked (ctx : Ctx) (q : Except String String) (s : Ledger) :
    (∀ r, GetRecord { ctx with peerMSPID := q } s r = GetRecord ctx s r) ∧
    (∀ X DateFrom DateTo L, GetRecords { ctx with peerMSPID := q } s X DateFrom DateTo L =
      GetRecords ctx s X DateFrom DateTo L) ∧
    (∀ r R, RevokeRecord { ctx with peerMSPID := q } s r R = RevokeRecord ctx s r R) ∧
    (∀ r R, step s (.revokeRecord { ctx with peerMSPID := q } r R) =
      step s (.revokeRecord ctx r R)) ∧
    (∀ r R record, s.WellFormed → sharedRecord s r = some record → record.Revoked = false →
      (RevokeRecord ctx s r R).1 = .ok ()) := by
  refine ⟨fun r => rfl, ?_, fun r R => rfl, ?_, ?_⟩
  · intro X f t L
    unfold GetRecords
    split
    · rfl
    · simp only []
      cases GetPrivateDataQueryResult s recordCollection (GetRecords.selector X f t) with
      | error e => rfl
      | ok qs => exact loop_ignores_peer ctx q s L qs [] 0
  · intro r R
    rfl
  · intro r R record hwf hrec hnr
    obtain ⟨doc, hdoc, hdec⟩ := (sharedRecord_eq_some_iff s r record).1 hrec
    have hr : r ≠ "" := key_ne_empty_of_lookup s hwf _ r doc hdoc
    have h1 := RevokeRecord_eq ctx s r R
    simp only [hr, if_false, hdoc, hdec, hnr] at h1
    rw [h1]
    rfl

/-- C14, witness: `R1`, created by `Org1MSP`, is revoked by a client of
`Org3MSP` on a peer of `Org2MSP`. -/
theorem peer_org_not_checked_witness :
    (RevokeRecord (ctxOf "Org3MSP" "Org2MSP" payloadR1JSON) ledgerR1 "R1" "lost tag").1 =
      .ok () :=
  (peer_org_not_checked (ctxOf "Org3MSP" "Org2MSP" payloadR1JSON) (.ok "Org1MSP") ledgerR1).2.2.2.2
    "R1" "lost tag" (shellOf payloadR1) (by decide) (by rfl) (by rfl)

/-- C15: on every ledger reached from the empty ledger, every value of the
shared collection decodes to a shared record with non-empty `objectType`,
`recordId`, `isoNumbers`, `premiseId` and `documentType`, a non-zero
`createdAtUTC`, and an empty `revocationReason` when `revoked` is false. -/
theorem stored_shells_valid (calls : List Call) :
    ∀ e ∈ run [] calls, e.collection = recordCollection →
      ∃ record, unmarshalCSFRecord CSFRecord.zero e.value = .ok record ∧
        record.ObjectType ≠ "" ∧ record.RecordID ≠ "" ∧ len record.ISONumbers ≠ 0 ∧
        record.PremiseID ≠ "" ∧ record.DocumentType ≠ "" ∧ record.CreatedAtUTC ≠ 0 ∧
        (record.Revoked = false → record.RevocationReason = "") := by
  intro e he hc
  obtain ⟨record, hval, _, hlt, h1, h2, h3, h4, h5, h6, h7⟩ := (inv_run calls).shared e he hc
  exact ⟨record, by rw [hval]; exact unmarshal_marshalCSFRecord record hlt,
    h1, h2, h3, h5, h6, h4, h7⟩

/-- C15, witness: the shared record of `R1` after it was created and revoked
with an empty reason. -/
theorem stored_shells_valid_witness :
    ∃ record, unmarshalCSFRecord CSFRecord.zero
        (marshalCSFRecord { shellOf payloadR1 with Revoked := true, RevocationReason := "" }) =
          .ok record ∧
      record.ObjectType ≠ "" ∧ record.RecordID ≠ "" ∧ len record.ISONumbers ≠ 0 ∧
      record.PremiseID ≠ "" ∧ record.DocumentType ≠ "" ∧ record.CreatedAtUTC ≠ 0 ∧
      (record.Revoked = false → record.RevocationReason = "") :=
  stored_shells_valid [.addRecord ctxOrg1, .revokeRecord ctxCross "R1" ""]
    ⟨"recordCollection", "R1",
      marshalCSFRecord { shellOf payloadR1 with Revoked := true, RevocationReason := "" }⟩
    (List.mem_cons_self _ _) (by rfl)

/-- C16: on every ledger reached from the empty ledger, for every caller and
every `GetRecords` that returns records, each record `m` of the result is the
record `GetRecord m.recordId` returns to the same caller on the same ledger. -/
theorem getRecords_agrees_with_getRecord (calls : List Call) (ctx : Ctx) (X : String)
    (DateFrom DateTo L : Nat) (rs : List Record)
    (h : GetRecords ctx (run [] calls) X DateFrom DateTo L = .ok rs) :
    ∀ m ∈ rs, GetRecord ctx (run [] calls) m.RecordID = .ok (some m) := by
  intro m hm
  obtain ⟨e, he, hcoll, hi⟩ := GetRecords_mem ctx _ X DateFrom DateTo L rs h m hm
  exact item_agrees ctx _ _ (inv_run calls)
    (nodup_keys_run calls [] (by simp [Ledger.keys])) e he hcoll m hi

/-- C16, witness: the record `GetRecords` returns to a client of `Org1MSP` for
`A123` after `R1` was created is the record `GetRecord` returns for `R1`. -/
theorem getRecords_agrees_with_getRecord_witness :
    GetRecord ctxOrg1 (run [] [.addRecord ctxOrg1]) "R1" = .ok (some recordR1) :=
  getRecords_agrees_with_getRecord [.addRecord ctxOrg1] ctxOrg1 "A123" 0 0 0 [recordR1]
    (by rfl) recordR1 (List.mem_cons_self _ _)

/-- C17: the checks of `AddRecord` come in the order validation, duplicate,
same organization: a payload that violates a requirement gets the empty-field
error even when its `recordId` exists, and a valid payload whose `recordId`
exists gets the duplicate error even when the organization of the client is
not the organization of the peer. -/
theorem addRecord_check_order (ctx : Ctx) (s : Ledger) (p : recordTransientInput)
    (hp : decodedPayload ctx = .ok p) :
    (∀ f, firstViolated p = some f →
      AddRecord ctx s = (.error (.mustBeNonEmpty f), [])) ∧
    (∀ doc c q, Valid p → s.lookup recordCollection p.RecordID = some doc →
      ctx.clientMSPID = .ok c → ctx.peerMSPID = .ok q → c ≠ q →
      AddRecord ctx s = (.error (.alreadyExists p.RecordID), []) ∧
      ∀ cause, (AddRecord ctx s).1 ≠ .error (.createCannotBePerformed cause)) := by
  have hadd := AddRecord_of_payload ctx s p hp
  constructor
  · intro f hf
    simp only [hf] at hadd
    exact hadd
  · intro doc c q hv hdoc _ _ _
    have hfv := firstViolated_eq_none p hv
    simp only [hfv, hdoc] at hadd
    refine ⟨hadd, ?_⟩
    intro cause h
    rw [hadd] at h
    exact Err.noConfusion (Except.error.inj h)

/-- C17, witness: `R1` sent again by a client of `Org1MSP` on a peer of
`Org2MSP`. -/
theorem addRecord_check_order_witness :
    AddRecord ctxCross ledgerR1 = (.error (.alreadyExists "R1"), []) ∧
    ∀ cause, (AddRecord ctxCross ledgerR1).1 ≠ .error (.createCannotBePerformed cause) :=
  (addRecord_check_order ctxCross ledgerR1 payloadR1 (by rfl)).2
    (marshalCSFRecord (shellOf payloadR1)) "Org1MSP" "Org2MSP"
    (by decide) (by rfl) (by rfl) (by rfl) (by decide)

/-- C18: a successful `AddRecord` stores at key `recordId` of the shared
collection the shared record of the payload with `revoked = false` and
`revocationReason = ""`; and an invocation whose payload differs only in
`revoked` and `revocationReason` returns the same result with the same write
set. -/
theorem addRecord_stores_unrevoked (ctx : Ctx) (s : Ledger)
    (hok : (AddRecord ctx s).1 = .ok ()) :
    ∃ p, decodedPayload ctx = .ok p ∧
      sharedRecord (step s (.addRecord ctx)) p.RecordID = some (shellOf p) ∧
      (shellOf p).Revoked = false ∧ (shellOf p).RevocationReason = "" ∧
      (∀ (ctx2 : Ctx) (p2 : recordTransientInput) (b : Bool) (x : String),
        decodedPayload ctx2 = .ok p2 →
        p2 = { p with Revoked := b, RevocationReason := x } →
        ctx2.clientMSPID = ctx.clientMSPID → ctx2.clientID = ctx.clientID →
        ctx2.peerMSPID = ctx.peerMSPID →
        AddRecord ctx2 s = AddRecord ctx s ∧
        step s (.addRecord ctx2) = step s (.addRecord ctx)) := by
  rcases step_addRecord_cases s ctx with ⟨⟨e, he⟩, _⟩ |
    ⟨p, org, hp, hv, hfresh, hc, _, _, hstep⟩
  · rw [hok] at he
    exact Except.noConfusion he
  · have hlt := decodedPayload_createdAtUTC_lt ctx p hp
    refine ⟨p, hp, ?_, rfl, rfl, ?_⟩
    · refine (sharedRecord_eq_some_iff _ _ _).2 ⟨_, ?_, unmarshal_marshalCSFRecord _ hlt⟩
      rw [hstep, lookup_put, lookup_put]
      simp [orgCollection_ne_recordCollection]
    · intro ctx2 p2 b x hp2 hp2eq h1 h2 h3
      have hsci : submittingClientIdentity ctx2 = submittingClientIdentity ctx := by
        unfold submittingClientIdentity
        rw [h2]
      have hver : verifyClientOrgMatchesPeerOrg ctx2 = verifyClientOrgMatchesPeerOrg ctx := by
        unfold verifyClientOrgMatchesPeerOrg
        rw [h1, h3]
      have hadd : AddRecord ctx2 s = AddRecord ctx s := by
        rw [AddRecord_of_payload ctx2 s p2 hp2, AddRecord_of_payload ctx s p hp, hsci, hver, h1,
          hp2eq]
        rfl
      refine ⟨hadd, ?_⟩
      show s.after (AddRecord ctx2 s) = s.after (AddRecord ctx s)
      rw [hadd]

/-- C18, witness: the example payload sent with `revoked = true` and a
reason is stored unrevoked, with the result and the write set of the payload
sent without them. -/
theorem addRecord_stores_unrevoked_witness :
    sharedRecord (step [] (.addRecord ctxOrg1Revoked)) "R1" = some (shellOf payloadR1) ∧
    AddRecord ctxOrg1 [] = AddRecord ctxOrg1Revoked [] := by
  obtain ⟨p, hp, h1, _, _, h4⟩ := addRecord_stores_unrevoked ctxOrg1Revoked [] (by rfl)
  have hpe : p = payloadR1Revoked :=
    (Except.ok.inj ((show decodedPayload ctxOrg1Revoked = .ok payloadR1Revoked from rfl).symm.trans
      hp)).symm
  subst hpe
  exact ⟨h1, (h4 ctxOrg1 payloadR1 false "" (by rfl) (by rfl) (by rfl) (by rfl) (by rfl)).1⟩

/-- C19: `getCollectionName` is the organization identifier followed by
`PrivateCollection`; two organizations with the same collection name are the
same organization; and no collection name is `recordCollection`. -/
theorem getCollectionName_separates (ctx ctx2 : Ctx) (a b : String)
    (ha : ctx.clientMSPID = .ok a) (hb : ctx2.clientMSPID = .ok b) :
    getCollectionName ctx = .ok (a ++ "PrivateCollection") ∧
    (getCollectionName ctx = getCollectionName ctx2 → a = b) ∧
    getCollectionName ctx ≠ .ok recordCollection ∧
    recordCollection = "recordCollection" := by
  have h1 : getCollectionName ctx = .ok (a ++ "PrivateCollection") := by
    simp [getCollectionName, ha]
  have h2 : getCollectionName ctx2 = .ok (b ++ "PrivateCollection") := by
    simp [getCollectionName, hb]
  refine ⟨h1, ?_, ?_, rfl⟩
  · intro h
    rw [h1, h2] at h
    exact orgCollection_injective a b (Except.ok.inj h)
  · rw [h1]
    intro h
    exact orgCollection_ne_recordCollection a (Except.ok.inj h)

/-- C19, witness: the collection of `Org1MSP`. -/
theorem getCollectionName_separates_witness :
    getCollectionName ctxOrg1 = .ok "Org1MSPPrivateCollection" :=
  (getCollectionName_separates ctxOrg1 ctxCross "Org1MSP" "Org1MSP" (by rfl) (by rfl)).1

/-- C20: on every ledger reached from the empty ledger, the shared record
stored at key `k` has `recordId = k`, the private details stored at key `k` of
a private collection have `recordId = k`, and a key that holds private details
holds a shared record in the shared collection. -/
theorem keys_match_record_ids (calls : List Call) :
    (∀ e ∈ run [] calls, e.collection = recordCollection →
      ∃ record, unmarshalCSFRecord CSFRecord.zero e.value = .ok record ∧
        record.RecordID = e.key) ∧
    (∀ e ∈ run [] calls, e.collection ≠ recordCollection →
      ∃ d, unmarshalCSFRecordPrivateDetails CSFRecordPrivateDetails.zero e.value = .ok d ∧
        d.RecordID = e.key ∧
        ∃ record, sharedRecord (run [] calls) e.key = some record) := by
  have hinv := inv_run calls
  constructor
  · intro e he hc
    obtain ⟨record, hval, hid, hlt, _⟩ := hinv.shared e he hc
    exact ⟨record, by rw [hval]; exact unmarshal_marshalCSFRecord record hlt, hid⟩
  · intro e he hc
    obtain ⟨org, d, _, hcr, hval, hid⟩ := hinv.priv e he hc
    refine ⟨{ RecordID := d.RecordID, Fields := d.Fields.map sortedEntries },
      by rw [hval]; exact unmarshal_marshalCSFRecordPrivateDetails_sorted d, hid, ?_⟩
    have hsome := (hinv.created e.key org hcr).1
    cases hl : Ledger.lookup (run [] calls) recordCollection e.key with
    | none => exact absurd hl hsome
    | some doc =>
      obtain ⟨e1, hm1, hc1, _, hv1⟩ := mem_of_lookup _ _ _ doc hl
      obtain ⟨record, hval1, hs1⟩ := hinv.shared e1 hm1 hc1
      rw [hv1] at hval1
      exact ⟨record, (sharedRecord_eq_some_iff _ _ _).2
        ⟨doc, hl, by rw [hval1]; exact unmarshal_marshalCSFRecord record hs1.2.1⟩⟩

/-- C20, witness: the private details of `R1` after `Org1MSP` created it. -/
theorem keys_match_record_ids_witness :
    ∃ d, unmarshalCSFRecordPrivateDetails CSFRecordPrivateDetails.zero
        (marshalCSFRecordPrivateDetails (detailsOf payloadR1)) = .ok d ∧
      d.RecordID = "R1" ∧
      ∃ record, sharedRecord (run [] [.addRecord ctxOrg1]) "R1" = some record :=
  (keys_match_record_ids [.addRecord ctxOrg1]).2
    ⟨"Org1MSPPrivateCollection", "R1", marshalCSFRecordPrivateDetails (detailsOf payloadR1)⟩
    (List.mem_cons_of_mem _ (List.mem_cons_self _ _)) (by decide)

end CRO
